import Mathlib

/-!
PD-Flow launcher (`main_scene_flow_impair.cpp`).

A shallow embedding of the command-line front end of the primal-dual scene
flow program: `get_all`, `parse_arguments` and `main`.

* `argv` is a `List String`; position 0 is the program name, so the option
  tokens are `argv.drop 1` (the source starts at `arg_idx = 1`).
* `std::stoi` can throw; an uncaught exception leaves `parse_arguments`
  without a return value, so the parser returns `Except StoiError _`.
* The solver object `PD_flow_opencv` is an external collaborator.  Every call
  made on it is recorded as an `Event`; the booleans it returns
  (`loadRGBDFrames`, `setNextImages`) are supplied by a `World`.
* `std::vector::operator[]` outside the vector is undefined behaviour; the
  run stops there with status `Status.undefined`.
-/

namespace PDFlow

/-! ## Arguments -/

/-- The struct `Launch_args`.  The two `const char *` directory fields may be
`NULL`, which is `none`. -/
structure Launch_args where
  rows : Nat
  show_help : Nat
  intensity_filename_1 : String
  intensity_filename_2 : String
  intensity_dir : Option String
  depth_filename_1 : String
  depth_filename_2 : String
  depth_dir : Option String
  output_filename_root : String
  no_show : Bool
  deriving DecidableEq, Repr

/-- The exceptions `std::stoi` throws. -/
inductive StoiError where
  | invalid_argument
  | out_of_range
  deriving DecidableEq, Repr

deriving instance DecidableEq for Except

/-- The C locale `isspace`: space, `\t`, `\n`, `\v`, `\f`, `\r`. -/
def isspace (c : Char) : Bool :=
  c.toNat = 32 || (9 ≤ c.toNat && c.toNat ≤ 13)

/-- The C locale `isdigit`. -/
def isdigit (c : Char) : Bool :=
  48 ≤ c.toNat && c.toNat ≤ 57

/-- Value of a run of decimal digits, most significant first. -/
def digitsValue (ds : List Char) : Nat :=
  ds.foldl (fun acc c => 10 * acc + (c.toNat - 48)) 0

/-- The sign part of a `strtol` subject sequence: an optional `+` or `-`. -/
def stoiSign : List Char → Bool × List Char
  | '-' :: r => (true, r)
  | '+' :: r => (false, r)
  | cs => (false, cs)

/-- The library function `std::stoi(str)` (base 10, `int` of 32 bits): skips
leading white space, reads an optional sign and the longest run of digits,
ignores what follows; throws `invalid_argument` when there is no digit and
`out_of_range` when the value is not an `int`. -/
def stoi (s : String) : Except StoiError Int :=
  let body := stoiSign (s.toList.dropWhile isspace)
  let ds := body.2.takeWhile isdigit
  if ds = [] then .error .invalid_argument
  else
    let v : Int := if body.1 then -(digitsValue ds : Int) else (digitsValue ds : Int)
    if -2147483648 ≤ v ∧ v ≤ 2147483647 then .ok v else .error .out_of_range

/-- The values assigned at the top of `parse_arguments`. -/
def defaults : Launch_args where
  rows := 240
  show_help := 0
  intensity_filename_1 := "i1.png"
  intensity_filename_2 := "i2.png"
  intensity_dir := none
  depth_filename_1 := "z1.png"
  depth_filename_2 := "z2.png"
  depth_dir := none
  output_filename_root := "pdflow"
  no_show := false

/-- The test `rows == 15 || rows == 30 || ... || rows == 480`. -/
def rows_ok (rows : Int) : Bool :=
  rows == 15 || rows == 30 || rows == 60 || rows == 120 || rows == 240 || rows == 480

/-- The `while` loop of `parse_arguments`, on the tokens from `argv[arg_idx]`
on.  The result is `(parsed_ok, args)` at the `return`; `.error` is an
exception of `stoi` leaving the function. -/
def parse_loop : List String → Launch_args → Except StoiError (Bool × Launch_args)
  | [], args => .ok (true, args)
  | tok :: rest, args =>
    if tok = "--help" then
      .ok (true, { args with show_help := 1 })
    else if tok = "--rows" then
      match rest with
      | [] => .ok (false, args)
      | v :: rest' =>
        match stoi v with
        | .error e => .error e
        | .ok rows =>
          if rows_ok rows then parse_loop rest' { args with rows := rows.toNat }
          else .ok (false, args)
    else if tok = "--i1" then
      match rest with
      | [] => .ok (false, args)
      | v :: rest' => parse_loop rest' { args with intensity_filename_1 := v }
    else if tok = "--i2" then
      match rest with
      | [] => .ok (false, args)
      | v :: rest' => parse_loop rest' { args with intensity_filename_2 := v }
    else if tok = "--idir" then
      match rest with
      | [] => .ok (false, args)
      | v :: rest' => parse_loop rest' { args with intensity_dir := some v }
    else if tok = "--z1" then
      match rest with
      | [] => .ok (false, args)
      | v :: rest' => parse_loop rest' { args with depth_filename_1 := v }
    else if tok = "--z2" then
      match rest with
      | [] => .ok (false, args)
      | v :: rest' => parse_loop rest' { args with depth_filename_2 := v }
    else if tok = "--zdir" then
      match rest with
      | [] => .ok (false, args)
      | v :: rest' => parse_loop rest' { args with depth_dir := some v }
    else if tok = "--out" then
      match rest with
      | [] => .ok (false, args)
      | v :: rest' => parse_loop rest' { args with output_filename_root := v }
    else if tok = "--no-show" then
      parse_loop rest { args with no_show := true }
    else
      .ok (false, args)

/-- The function `parse_arguments(num_arg, argv, args)`: the defaults, then
the loop from `arg_idx = 1`. -/
def parse_arguments (argv : List String) : Except StoiError (Bool × Launch_args) :=
  parse_loop (argv.drop 1) defaults

/-! ## The file system and the solver -/

/-- What `get_all` asks of one entry of a `fs::directory_iterator`: its path,
`fs::is_regular_file` and `path().extension()`. -/
structure DirEntry where
  path : String
  is_regular_file : Bool
  extension : String
  deriving DecidableEq, Repr

/-- The environment of a run: the file system queries of `get_all` and the
values returned by the two loading calls of `PD_flow_opencv`.
`setNextImages j` is the value returned by the `j`-th call (from 0). -/
structure World where
  path_exists : String → Bool
  is_directory : String → Bool
  directory_iterator : String → List DirEntry
  loadRGBDFrames : Bool
  setNextImages : Nat → Bool

/-- The function `get_all(root, ext, ret)`: the paths of the regular files of
`root` with extension `ext` are pushed onto `ret`, in iterator order. -/
def get_all (w : World) (root : String) (ext : String) (ret : List String) : List String :=
  if !w.path_exists root || !w.is_directory root then ret
  else ret ++ ((w.directory_iterator root).filter
    (fun it => it.is_regular_file && it.extension == ext)).map DirEntry.path

/-- Lexicographic `<` on character sequences by character code. -/
def lex_lt : List Char → List Char → Bool
  | [], [] => false
  | [], _ :: _ => true
  | _ :: _, [] => false
  | a :: as, b :: bs => a.toNat < b.toNat || (a.toNat == b.toNat && lex_lt as bs)

/-- The comparison `operator<` of two paths, as used by `sort`: the entries of
one directory share their parent, so the paths compare as their strings. -/
def path_lt (a b : String) : Bool :=
  lex_lt a.toList b.toList

/-- The relation "`b` is not before `a`". -/
def path_le (a b : String) : Prop :=
  path_lt b a = false

instance : DecidableRel path_le :=
  fun a b => inferInstanceAs (Decidable (path_lt b a = false))

/-- The call `sort(v.begin(), v.end())` on a vector of paths: the ascending
arrangement of the elements under `operator<`. -/
def sort (v : List String) : List String :=
  v.insertionSort path_le

/-- The observable calls of `main`, in program order.  The two loading calls
carry the value they returned. -/
inductive Event where
  | printf_usage
  | getwchar
  | PD_flow_opencv (rows : Nat) (output_filename_root : String)
  | setInitialImagesPath (i1 i2 z1 z2 : String)
  | initializeCUDA
  | loadRGBDFrames (result : Bool)
  | solveSceneFlowGPU
  | createImage
  | saveResults
  | showImages
  | showAndSaveResults
  | printf_push_any_key
  | waitKey
  | setNextImages (intensity depth : String) (result : Bool)
  | freeGPUMemory
  deriving DecidableEq, Repr

/-- How a run ends: `main` returns a code, an exception of `stoi` reaches the
top (`std::terminate`), a vector is indexed outside its size or an
uninitialised `int` is read (undefined behaviour), or the loop model has no
fuel left. -/
inductive Status where
  | returned (code : Int)
  | terminated
  | undefined
  | out_of_fuel
  deriving DecidableEq, Repr

/-- The calls made by a run and the way it ended. -/
structure Run where
  trace : List Event
  status : Status
  deriving DecidableEq, Repr

/-- The run `r` preceded by the calls `evs`. -/
def Run.after (evs : List Event) (r : Run) : Run :=
  ⟨evs ++ r.trace, r.status⟩

/-- The `if( args.no_show ) ... else ...` block that follows each solve. -/
def results (args : Launch_args) : List Event :=
  if args.no_show then [.createImage, .saveResults]
  else [.showImages, .showAndSaveResults, .printf_push_any_key, .waitKey]

/-- The code after the loop: `if (imloaded) freeGPUMemory(); return 0;`. -/
def main_exit (imloaded : Bool) : Run :=
  ⟨if imloaded then [.freeGPUMemory] else [], .returned 0⟩

/-- The `while (true)` loop of `main` followed by `main_exit`.  `batch_ind` is
`none` while the `int` is uninitialised; `calls` counts the `setNextImages`
calls made so far. -/
def main_loop (w : World) (args : Launch_args) (intensities depths : List String) :
    Nat → Bool → Int → Option Nat → Nat → Run
  | 0, _, _, _, _ => ⟨[], .out_of_fuel⟩
  | fuel + 1, imloaded, iters, batch_ind, calls =>
    if imloaded then
      Run.after (.solveSceneFlowGPU :: results args)
        (if iters - 1 > 0 then
          match batch_ind with
          | none => ⟨[], .undefined⟩
          | some b =>
            match intensities[b]?, depths[b]? with
            | some i, some z =>
              Run.after [.setNextImages i z (w.setNextImages calls)]
                (main_loop w args intensities depths fuel (w.setNextImages calls)
                  (iters - 1) (some (b + 1)) (calls + 1))
            | _, _ => ⟨[], .undefined⟩
        else main_exit imloaded)
    else main_exit imloaded

/-- The part of `main` from `initializeCUDA` on.  The loop runs at most
`iters` times (once when `iters ≤ 0`), which bounds the fuel. -/
def main_session (w : World) (args : Launch_args) (intensities depths : List String)
    (iters : Int) (batch_ind : Option Nat) : Run :=
  Run.after [.initializeCUDA, .loadRGBDFrames w.loadRGBDFrames]
    (main_loop w args intensities depths (iters.toNat + 1) w.loadRGBDFrames iters batch_ind 0)

/-- The section "Main operations" of `main`.  `iters` is an `int` holding
`intensities.size() - 1`; listings are taken to have fewer than `2^31`
entries, so the value is not wrapped. -/
def main_operations (w : World) (args : Launch_args) : Run :=
  Run.after [.PD_flow_opencv args.rows args.output_filename_root]
    (match args.intensity_dir, args.depth_dir with
    | some idir, some zdir =>
      let intensities := sort (get_all w idir ".png" [])
      let depths := sort (get_all w zdir ".png" [])
      match intensities[0]?, intensities[1]?, depths[0]?, depths[1]? with
      | some i0, some i1, some z0, some z1 =>
        Run.after [.setInitialImagesPath i0 i1 z0 z1]
          (main_session w args intensities depths ((intensities.length : Int) - 1) (some 2))
      | _, _, _, _ => ⟨[], .undefined⟩
    | _, _ =>
      Run.after [.setInitialImagesPath args.intensity_filename_1 args.intensity_filename_2
          args.depth_filename_1 args.depth_filename_2]
        (main_session w args [] [] 1 none))

/-- The function `main(num_arg, argv)`. -/
def main (w : World) (argv : List String) : Run :=
  match parse_arguments argv with
  | .error _ => ⟨[], .terminated⟩
  | .ok (parsed_ok, args) =>
    if !parsed_ok || args.show_help != 0 then ⟨[.printf_usage, .getwchar], .returned 1⟩
    else main_operations w args

/-- An example world: directory `"rgb"` lists `c, a, b` (and a text file), directory
`"depth"` lists `z2, z0, z1`; every load succeeds. -/
def world3 : World where
  path_exists := fun p => p = "rgb" || p = "depth"
  is_directory := fun p => p = "rgb" || p = "depth"
  directory_iterator := fun p =>
    if p = "rgb" then
      [⟨"rgb/c.png", true, ".png"⟩, ⟨"rgb/a.png", true, ".png"⟩, ⟨"rgb/notes.txt", true, ".txt"⟩,
       ⟨"rgb/b.png", true, ".png"⟩]
    else if p = "depth" then
      [⟨"depth/z2.png", true, ".png"⟩, ⟨"depth/z0.png", true, ".png"⟩,
       ⟨"depth/z1.png", true, ".png"⟩]
    else []
  loadRGBDFrames := true
  setNextImages := fun _ => true

/-- A world without directories in which the loads return `load` and `next`. -/
def plain_world (load : Bool) (next : Nat → Bool) : World where
  path_exists := fun _ => false
  is_directory := fun _ => false
  directory_iterator := fun _ => []
  loadRGBDFrames := load
  setNextImages := next

/-- Two directories `"rgb"` and `"depth"` holding the given paths as regular
`.png` files, in the given iterator order. -/
def dir_world (rgb depth : List String) (load : Bool) (next : Nat → Bool) : World where
  path_exists := fun p => p = "rgb" || p = "depth"
  is_directory := fun p => p = "rgb" || p = "depth"
  directory_iterator := fun p =>
    if p = "rgb" then rgb.map fun f => ⟨f, true, ".png"⟩
    else if p = "depth" then depth.map fun f => ⟨f, true, ".png"⟩
    else []
  loadRGBDFrames := load
  setNextImages := next

/-- A loading call that returned false. -/
def Event.failed_load : Event → Bool
  | .loadRGBDFrames false => true
  | .setNextImages _ _ false => true
  | _ => false

/-- A solve result that is written out: `saveResults` or `showAndSaveResults`. -/
def Event.artifact : Event → Bool
  | .saveResults => true
  | .showAndSaveResults => true
  | _ => false

/-- A call of `setNextImages`. -/
def Event.advance : Event → Bool
  | .setNextImages _ _ _ => true
  | _ => false

/-- The calls of one advance and the solve that follows it. -/
def advance (args : Launch_args) (p : String × String) : List Event :=
  .setNextImages p.1 p.2 true :: .solveSceneFlowGPU :: results args

/-- The frames a trace hands to the solver, as (intensity, depth) pairs in call
order: two by `setInitialImagesPath`, one by each `setNextImages`. -/
def frames_handed : List Event → List (String × String)
  | [] => []
  | .setInitialImagesPath i1 i2 z1 z2 :: evs => (i1, z1) :: (i2, z2) :: frames_handed evs
  | .setNextImages i z _ :: evs => (i, z) :: frames_handed evs
  | _ :: evs => frames_handed evs

/-- The assignment made by the branch of a value-taking path option. -/
def set_value (flag v : String) (a : Launch_args) : Launch_args :=
  if flag = "--i1" then { a with intensity_filename_1 := v }
  else if flag = "--i2" then { a with intensity_filename_2 := v }
  else if flag = "--idir" then { a with intensity_dir := some v }
  else if flag = "--z1" then { a with depth_filename_1 := v }
  else if flag = "--z2" then { a with depth_filename_2 := v }
  else if flag = "--zdir" then { a with depth_dir := some v }
  else if flag = "--out" then { a with output_filename_root := v }
  else a

/-- No call follows a failed load: the trace ends at the first one. -/
def stops_at_failed_load : List Event → Bool
  | [] => true
  | e :: es => if e.failed_load then es.isEmpty else stops_at_failed_load es

/-- Every solve in the trace is directly followed by the calls `rs`. -/
def solves_followed_by (rs : List Event) : List Event → Bool
  | [] => true
  | e :: es =>
    (if e = .solveSceneFlowGPU then rs.isPrefixOf es else true) && solves_followed_by rs es

/-! ## The argument parser -/

theorem parse_loop_help (rest : List String) (a : Launch_args) :
    parse_loop ("--help" :: rest) a = .ok (true, { a with show_help := 1 }) := by
  cases rest <;> simp [parse_loop]

theorem parse_loop_no_show (rest : List String) (a : Launch_args) :
    parse_loop ("--no-show" :: rest) a = parse_loop rest { a with no_show := true } := by
  cases rest <;> simp [parse_loop]

theorem parse_loop_unrecognised (t : String) (rest : List String) (a : Launch_args)
    (ht : t ∉ ["--help", "--rows", "--i1", "--i2", "--idir", "--z1", "--z2", "--zdir", "--out",
      "--no-show"]) :
    parse_loop (t :: rest) a = .ok (false, a) := by
  simp at ht
  cases rest <;> simp [parse_loop, ht]

/-- A prefix that is parsed to its end without error and without `--help`
leaves the loop at the token after it, in option position. -/
theorem parse_loop_append (pre rest : List String) (a0 a : Launch_args)
    (h0 : a0.show_help = 0) (h : parse_loop pre a0 = .ok (true, a)) (ha : a.show_help = 0) :
    parse_loop (pre ++ rest) a0 = parse_loop rest a := by
  induction pre, a0 using parse_loop.induct <;>
    simp_all [parse_loop, parse_loop_help, parse_loop_no_show]
  case case2 => subst h; simp at ha
  case case22 r _ _ _ _ _ _ _ _ _ _ _ => cases r <;> simp_all [parse_loop]

/-- The same for `parse_arguments`: `a` is the configuration when the token
after `pre` is read. -/
theorem parse_arguments_append (prog : String) (pre rest : List String) (a : Launch_args)
    (h : parse_arguments (prog :: pre) = .ok (true, a)) (ha : a.show_help = 0) :
    parse_arguments (prog :: (pre ++ rest)) = parse_loop rest a := by
  simp only [parse_arguments, List.drop_succ_cons, List.drop_zero] at h ⊢
  exact parse_loop_append pre rest defaults a rfl h ha

/-- A field changes only when its flag occurs among the tokens. -/
theorem parse_loop_frame (toks : List String) (a0 : Launch_args) (b : Bool) (a : Launch_args)
    (h : parse_loop toks a0 = .ok (b, a)) :
    ("--rows" ∉ toks → a.rows = a0.rows) ∧
    ("--help" ∉ toks → a.show_help = a0.show_help) ∧
    ("--i1" ∉ toks → a.intensity_filename_1 = a0.intensity_filename_1) ∧
    ("--i2" ∉ toks → a.intensity_filename_2 = a0.intensity_filename_2) ∧
    ("--idir" ∉ toks → a.intensity_dir = a0.intensity_dir) ∧
    ("--z1" ∉ toks → a.depth_filename_1 = a0.depth_filename_1) ∧
    ("--z2" ∉ toks → a.depth_filename_2 = a0.depth_filename_2) ∧
    ("--zdir" ∉ toks → a.depth_dir = a0.depth_dir) ∧
    ("--out" ∉ toks → a.output_filename_root = a0.output_filename_root) ∧
    ("--no-show" ∉ toks → a.no_show = a0.no_show) := by
  induction toks, a0 using parse_loop.induct <;>
    simp_all [parse_loop, parse_loop_help, parse_loop_no_show]
  case case2 => obtain ⟨-, rfl⟩ := h; simp
  case case22 t r _ _ _ _ _ _ _ _ _ _ _ =>
    rw [parse_loop_unrecognised t r _ (by simp; tauto)] at h
    simp at h
    obtain ⟨-, rfl⟩ := h
    simp

/-- A `--rows` value that `stoi` reads as an `int` outside the six accepted
row counts makes `parse_arguments` return false, with the configuration of
the tokens before it. -/
theorem rows_rejected_of_stoi (prog : String) (pre post : List String) (v : String) (r : Int)
    (a : Launch_args) (hpre : parse_arguments (prog :: pre) = .ok (true, a))
    (hhelp : a.show_help = 0) (hv : stoi v = .ok r)
    (hr : r ∉ ([15, 30, 60, 120, 240, 480] : List Int)) :
    parse_arguments (prog :: (pre ++ "--rows" :: v :: post)) = .ok (false, a) := by
  rw [parse_arguments_append prog pre _ a hpre hhelp]
  have hok : rows_ok r = false := by
    simp at hr
    simp [rows_ok, hr]
  simp [parse_loop, hv, hok]

theorem rows_rejected_of_stoi_witness :
    parse_arguments ("pdflow" :: (["--no-show"] ++ "--rows" :: "-7" :: ["--help"])) =
      .ok (false, { defaults with no_show := true }) :=
  rows_rejected_of_stoi "pdflow" ["--no-show"] ["--help"] "-7" (-7) _ (by decide) (by decide)
    (by decide) (by decide)

theorem digitsValue_append_singleton (pre : List Char) (d : Char) :
    digitsValue (pre ++ [d]) = 10 * digitsValue pre + (d.toNat - 48) := by
  simp [digitsValue, List.foldl_append]

theorem digitChar_digit (m : Nat) (hm : m < 10) :
    isdigit (Nat.digitChar m) = true ∧ (Nat.digitChar m).toNat - 48 = m := by
  interval_cases m <;> decide

theorem toDigitsCore_spec : ∀ (fuel n : Nat) (ds : List Char), n < fuel →
    ∃ pre, Nat.toDigitsCore 10 fuel n ds = pre ++ ds ∧ pre ≠ [] ∧
      (∀ c ∈ pre, isdigit c = true) ∧ digitsValue pre = n := by
  intro fuel
  induction fuel with
  | zero => intro n ds h; omega
  | succ fuel ih =>
    intro n ds h
    obtain ⟨hd, hv⟩ := digitChar_digit (n % 10) (Nat.mod_lt _ (by norm_num))
    unfold Nat.toDigitsCore
    simp only []
    split
    · rename_i h0
      refine ⟨[Nat.digitChar (n % 10)], rfl, by simp, by simpa using hd, ?_⟩
      have : n = n % 10 := by omega
      simp [digitsValue, hv]
      omega
    · rename_i h0
      obtain ⟨pre, h1, h2, h3, h4⟩ := ih (n / 10) (Nat.digitChar (n % 10) :: ds) (by omega)
      refine ⟨pre ++ [Nat.digitChar (n % 10)], by simp [h1], by simp, ?_, ?_⟩
      · intro c hc
        simp at hc
        rcases hc with hc | hc
        · exact h3 c hc
        · rw [hc]; exact hd
      · rw [digitsValue_append_singleton, h4, hv]
        omega

theorem isdigit_not_special (c : Char) (h : isdigit c = true) :
    isspace c = false ∧ c ≠ '-' ∧ c ≠ '+' := by
  simp only [isdigit, Bool.and_eq_true, decide_eq_true_eq] at h
  refine ⟨?_, ?_, ?_⟩
  · simp only [isspace, Bool.or_eq_false_iff, Bool.and_eq_false_imp, decide_eq_false_iff_not,
      decide_eq_true_eq]
    omega
  · rintro rfl; revert h; decide
  · rintro rfl; revert h; decide

theorem takeWhile_all (p : Char → Bool) : ∀ l : List Char, (∀ c ∈ l, p c = true) →
    l.takeWhile p = l
  | [], _ => rfl
  | c :: l, h => by
    simp [List.takeWhile, h c (by simp), takeWhile_all p l (fun d hd => h d (by simp [hd]))]

theorem stoi_digits (pre : List Char) (hne : pre ≠ []) (hd : ∀ c ∈ pre, isdigit c = true) :
    stoi (String.mk pre) =
      if (digitsValue pre : Int) ≤ 2147483647 then .ok (digitsValue pre)
      else .error .out_of_range := by
  obtain ⟨c, l, rfl⟩ := List.exists_cons_of_ne_nil hne
  obtain ⟨h1, h2, h3⟩ := isdigit_not_special c (hd c (by simp))
  have htw := takeWhile_all isdigit (c :: l) hd
  have hsign : stoiSign (c :: l) = (false, c :: l) := by
    unfold stoiSign
    split
    · rename_i heq; simp at heq; exact absurd heq.1 h2
    · rename_i heq; simp at heq; exact absurd heq.1 h3
    · rfl
  have hnn : (0 : Int) ≤ (digitsValue (c :: l) : Int) := Int.natCast_nonneg _
  simp only [stoi, String.toList, List.dropWhile, h1, hsign, htw]
  simp
  split_ifs <;> first | rfl | omega

theorem stoi_minus_digits (pre : List Char) (hne : pre ≠ [])
    (hd : ∀ c ∈ pre, isdigit c = true) :
    stoi (String.mk ('-' :: pre)) =
      if (digitsValue pre : Int) ≤ 2147483648 then .ok (-(digitsValue pre : Int))
      else .error .out_of_range := by
  have htw := takeWhile_all isdigit pre hd
  have hsp : isspace '-' = false := by decide
  have hnn : (0 : Int) ≤ (digitsValue pre : Int) := Int.natCast_nonneg _
  simp only [stoi, String.toList, List.dropWhile, hsp, stoiSign, htw]
  simp [hne]
  split_ifs <;> first | rfl | omega

/-- The function `stoi` reads the decimal numeral of an `int` back as that value. -/
theorem stoi_toString (r : Int) (hlo : -2147483648 ≤ r) (hhi : r ≤ 2147483647) :
    stoi (toString r) = .ok r := by
  cases r with
  | ofNat n =>
    obtain ⟨pre, h1, h2, h3, h4⟩ := toDigitsCore_spec (n + 1) n [] (by omega)
    have hs : toString (Int.ofNat n) = String.mk pre := by
      show Nat.repr n = _
      simp [Nat.repr, Nat.toDigits, h1, List.asString]
    rw [hs, stoi_digits pre h2 h3, h4]
    simp at hhi
    simp [hhi]
  | negSucc n =>
    obtain ⟨pre, h1, h2, h3, h4⟩ := toDigitsCore_spec (n + 1 + 1) (n + 1) [] (by omega)
    have hs : toString (Int.negSucc n) = String.mk ('-' :: pre) := by
      show "-" ++ Nat.repr (n + 1) = _
      simp [Nat.repr, Nat.toDigits, h1, List.asString]
      rfl
    rw [hs, stoi_minus_digits pre h2 h3, h4]
    have : ((n + 1 : Nat) : Int) ≤ 2147483648 := by
      have := Int.negSucc_eq n
      omega
    have h' : (n : Int) + 1 ≤ 2147483648 := by omega
    simp [h', Int.negSucc_eq]

/-- For every `int` value `r` outside the six accepted row counts, written as a
decimal numeral, `--rows r` read in option position makes `parse_arguments`
return false. -/
theorem rows_rejected_in_int_range (prog : String) (pre post : List String) (r : Int)
    (a : Launch_args) (hpre : parse_arguments (prog :: pre) = .ok (true, a))
    (hhelp : a.show_help = 0) (hlo : -2147483648 ≤ r) (hhi : r ≤ 2147483647)
    (hr : r ∉ ([15, 30, 60, 120, 240, 480] : List Int)) :
    parse_arguments (prog :: (pre ++ "--rows" :: toString r :: post)) = .ok (false, a) :=
  rows_rejected_of_stoi prog pre post (toString r) r a hpre hhelp (stoi_toString r hlo hhi) hr

theorem rows_rejected_in_int_range_witness :
    parse_arguments ("pdflow" :: (["--no-show"] ++ "--rows" :: toString (241 : Int) :: [])) =
      .ok (false, { defaults with no_show := true }) :=
  rows_rejected_in_int_range "pdflow" ["--no-show"] [] 241 _ (by decide) (by decide)
    (by decide) (by decide) (by decide)

/-- C4, at an input where it fails: `--rows 2147483648` is reached as the first
option; `stoi` throws `out_of_range`, so `parse_arguments` does not return
false (it does not return at all) and `main` ends in `std::terminate` without
printing the usage. -/
theorem rows_beyond_int_throws :
    (2147483648 : Int) ∉ ([15, 30, 60, 120, 240, 480] : List Int) ∧
    parse_arguments ["pdflow"] = .ok (true, defaults) ∧
    parse_arguments ["pdflow", "--rows", "2147483648"] = .error .out_of_range ∧
    ∀ w : World, main w ["pdflow", "--rows", "2147483648"] = ⟨[], .terminated⟩ := by
  refine ⟨by decide, by decide, by decide, fun w => ?_⟩
  have h : parse_arguments ["pdflow", "--rows", "2147483648"] = .error .out_of_range := by decide
  simp [main, h]

/-- C5: a value-taking flag (`--rows`, `--i1`, `--i2`, `--idir`, `--z1`, `--z2`,
`--zdir`, `--out`) that is reached as the last token makes `parse_arguments`
return false. -/
theorem value_flag_last_token_fails (prog : String) (pre : List String) (flag : String)
    (a : Launch_args)
    (hflag : flag ∈ ["--rows", "--i1", "--i2", "--idir", "--z1", "--z2", "--zdir", "--out"])
    (hpre : parse_arguments (prog :: pre) = .ok (true, a)) (hhelp : a.show_help = 0) :
    parse_arguments (prog :: (pre ++ [flag])) = .ok (false, a) := by
  rw [parse_arguments_append prog pre _ a hpre hhelp]
  simp at hflag
  rcases hflag with h | h | h | h | h | h | h | h <;> subst h <;> simp [parse_loop]

theorem value_flag_last_token_fails_witness :
    parse_arguments ("pdflow" :: (["--i1", "a.png", "--no-show"] ++ ["--zdir"])) =
      .ok (false, { defaults with intensity_filename_1 := "a.png", no_show := true }) :=
  value_flag_last_token_fails "pdflow" ["--i1", "a.png", "--no-show"] "--zdir" _ (by decide)
    (by decide) (by decide)

/-- C6: when a token that is no recognised flag is read in option position
(the tokens before it are parsed without error and without `--help`),
`parse_arguments` returns false with exactly the configuration of the tokens
before it, whatever follows. -/
theorem unrecognised_token_stops (prog : String) (pre post : List String) (t : String)
    (a : Launch_args)
    (ht : t ∉ ["--help", "--rows", "--i1", "--i2", "--idir", "--z1", "--z2", "--zdir", "--out",
      "--no-show"])
    (hpre : parse_arguments (prog :: pre) = .ok (true, a)) (hhelp : a.show_help = 0) :
    parse_arguments (prog :: (pre ++ t :: post)) = .ok (false, a) := by
  rw [parse_arguments_append prog pre _ a hpre hhelp]
  exact parse_loop_unrecognised t post a ht

theorem unrecognised_token_stops_witness :
    parse_arguments ("pdflow" :: (["--rows", "60"] ++ "-x" :: ["--out", "o", "--no-show"])) =
      .ok (false, { defaults with rows := 60 }) :=
  unrecognised_token_stops "pdflow" ["--rows", "60"] ["--out", "o", "--no-show"] "-x" _
    (by decide) (by decide) (by decide)

/-- C7 as stated fails: in `--out --help` the token `--help` is present and no
parse error occurs, yet it is taken as the value of `--out`; the parser
returns true with `show_help = 0`. -/
theorem help_as_value_not_help :
    "--help" ∈ ["--out", "--help"] ∧
    parse_arguments ["pdflow", "--out", "--help"] =
      .ok (true, { defaults with output_filename_root := "--help" }) ∧
    ({ defaults with output_filename_root := "--help" } : Launch_args).show_help = 0 := by
  decide

/-- C7, amended: when `--help` is read in option position (the tokens before
it are parsed without error), `parse_arguments` stops there, sets `show_help`
and returns true; the configuration is that of the tokens before `--help`
with `show_help = 1`, whatever follows. -/
theorem help_in_option_position (prog : String) (pre post : List String) (a : Launch_args)
    (hpre : parse_arguments (prog :: pre) = .ok (true, a)) (hhelp : a.show_help = 0) :
    parse_arguments (prog :: (pre ++ "--help" :: post)) =
      .ok (true, { a with show_help := 1 }) := by
  rw [parse_arguments_append prog pre _ a hpre hhelp]
  exact parse_loop_help post a

theorem help_in_option_position_witness :
    parse_arguments ("pdflow" :: (["--rows", "60"] ++ "--help" :: ["--rows", "7", "-x"])) =
      .ok (true, { { defaults with rows := 60 } with show_help := 1 }) :=
  help_in_option_position "pdflow" ["--rows", "60"] ["--rows", "7", "-x"] _ (by decide)
    (by decide)

/-- C8: with no option token `parse_arguments` returns true and the defaults
(rows 240, `i1.png`, `i2.png`, `z1.png`, `z2.png`, no directory, root
`pdflow`, `no_show` false, `show_help` 0); and whenever it returns, a field
whose flag does not occur among the tokens has its default. -/
theorem defaults_kept (prog : String) :
    parse_arguments [prog] = .ok (true,
      { rows := 240, show_help := 0, intensity_filename_1 := "i1.png",
        intensity_filename_2 := "i2.png", intensity_dir := none, depth_filename_1 := "z1.png",
        depth_filename_2 := "z2.png", depth_dir := none, output_filename_root := "pdflow",
        no_show := false }) ∧
    ∀ (toks : List String) (b : Bool) (a : Launch_args),
      parse_arguments (prog :: toks) = .ok (b, a) →
        ("--rows" ∉ toks → a.rows = 240) ∧
        ("--help" ∉ toks → a.show_help = 0) ∧
        ("--i1" ∉ toks → a.intensity_filename_1 = "i1.png") ∧
        ("--i2" ∉ toks → a.intensity_filename_2 = "i2.png") ∧
        ("--idir" ∉ toks → a.intensity_dir = none) ∧
        ("--z1" ∉ toks → a.depth_filename_1 = "z1.png") ∧
        ("--z2" ∉ toks → a.depth_filename_2 = "z2.png") ∧
        ("--zdir" ∉ toks → a.depth_dir = none) ∧
        ("--out" ∉ toks → a.output_filename_root = "pdflow") ∧
        ("--no-show" ∉ toks → a.no_show = false) := by
  refine ⟨by simp [parse_arguments, parse_loop, defaults], fun toks b a h => ?_⟩
  simp only [parse_arguments, List.drop_succ_cons, List.drop_zero] at h
  exact parse_loop_frame toks defaults b a h

theorem defaults_kept_witness :
    (120 = 240 → False) ∧
    ({ defaults with rows := 120, depth_dir := some "d" } : Launch_args).intensity_filename_1
      = "i1.png" ∧
    ({ defaults with rows := 120, depth_dir := some "d" } : Launch_args).no_show = false :=
  have h := (defaults_kept "pdflow").2 ["--rows", "120", "--zdir", "d"] true
    { defaults with rows := 120, depth_dir := some "d" } (by decide)
  ⟨by decide, h.2.2.1 (by decide), h.2.2.2.2.2.2.2.2.2 (by decide)⟩

/-! ## The order of paths -/

theorem char_toNat_inj {a b : Char} (h : a.toNat = b.toNat) : a = b := by
  rw [← Char.ofNat_toNat a, ← Char.ofNat_toNat b, h]

theorem lex_lt_asymm : ∀ a b : List Char, lex_lt a b = true → lex_lt b a = false
  | [], [] => by simp [lex_lt]
  | [], _ :: _ => by simp [lex_lt]
  | _ :: _, [] => by simp [lex_lt]
  | a :: as, b :: bs => by
    have ih := lex_lt_asymm as bs
    simp only [lex_lt, Bool.or_eq_true, Bool.and_eq_true, decide_eq_true_eq, beq_iff_eq,
      Bool.or_eq_false_iff, Bool.and_eq_false_imp, decide_eq_false_iff_not]
    rintro (h | ⟨h, h'⟩)
    · exact ⟨by omega, fun h2 => by omega⟩
    · exact ⟨by omega, fun _ => ih h'⟩

theorem lex_lt_total : ∀ a b : List Char, lex_lt a b = false → lex_lt b a = false → a = b
  | [], [] => by simp
  | [], _ :: _ => by simp [lex_lt]
  | _ :: _, [] => by simp [lex_lt]
  | a :: as, b :: bs => by
    have ih := lex_lt_total as bs
    simp only [lex_lt, Bool.or_eq_false_iff, Bool.and_eq_false_imp, decide_eq_false_iff_not,
      beq_iff_eq]
    rintro ⟨h1, h2⟩ ⟨h3, h4⟩
    have hab : a.toNat = b.toNat := by omega
    rw [char_toNat_inj hab, ih (h2 hab) (h4 hab.symm)]

theorem lex_lt_trans : ∀ a b c : List Char, lex_lt a b = true → lex_lt b c = true →
    lex_lt a c = true
  | [], [], _ => by simp [lex_lt]
  | [], _ :: _, [] => by simp [lex_lt]
  | [], _ :: _, _ :: _ => by simp [lex_lt]
  | _ :: _, [], _ => by simp [lex_lt]
  | _ :: _, _ :: _, [] => by simp [lex_lt]
  | a :: as, b :: bs, c :: cs => by
    have ih := lex_lt_trans as bs cs
    simp only [lex_lt, Bool.or_eq_true, Bool.and_eq_true, decide_eq_true_eq, beq_iff_eq]
    rintro (h | ⟨h, h'⟩) (k | ⟨k, k'⟩)
    · left; omega
    · left; omega
    · left; omega
    · right; exact ⟨by omega, ih h' k'⟩

instance : IsTotal String path_le where
  total a b := by
    unfold path_le path_lt
    cases h : lex_lt b.toList a.toList
    · exact Or.inl rfl
    · exact Or.inr (lex_lt_asymm _ _ h)

instance : IsAntisymm String path_le where
  antisymm a b h1 h2 := by
    unfold path_le path_lt at h1 h2
    exact String.ext (lex_lt_total _ _ h2 h1)

instance : IsTrans String path_le where
  trans a b c h1 h2 := by
    unfold path_le path_lt at *
    cases h : lex_lt c.toList a.toList
    · rfl
    · -- c < a, ¬ b < a, so a ≤ b; ¬ c < b so b ≤ c
      exfalso
      cases hab : lex_lt a.toList b.toList
      · have := lex_lt_total _ _ hab h1
        rw [this] at h
        rw [h] at h2
        cases h2
      · have := lex_lt_trans _ _ _ h hab
        rw [this] at h2
        cases h2

/-- Two listings of the same files are sorted into the same vector. -/
theorem sort_eq_of_perm {l1 l2 : List String} (h : l1.Perm l2) : sort l1 = sort l2 :=
  List.eq_of_perm_of_sorted
    (((List.perm_insertionSort path_le l1).trans h).trans (List.perm_insertionSort path_le l2).symm)
    (List.sorted_insertionSort path_le l1) (List.sorted_insertionSort path_le l2)

/-! ## The processing loop -/

@[simp] theorem Run.after_trace (evs : List Event) (r : Run) :
    (Run.after evs r).trace = evs ++ r.trace := rfl

@[simp] theorem Run.after_status (evs : List Event) (r : Run) :
    (Run.after evs r).status = r.status := rfl

theorem results_cases (args : Launch_args) :
    results args = [.createImage, .saveResults] ∨
    results args = [.showImages, .showAndSaveResults, .printf_push_any_key, .waitKey] := by
  unfold results
  split <;> simp

/-- A run whose arguments parse without a help request is the section
"Main operations". -/
theorem main_of_parse (w : World) (argv : List String) (args : Launch_args)
    (hparse : parse_arguments argv = .ok (true, args)) (hhelp : args.show_help = 0) :
    main w argv = main_operations w args := by
  simp [main, hparse, hhelp]

/-- What the loop and the exit code do with the session, for any load results:
with enough fuel the loop ends, it never acquires, it releases once when it
returns without a failed load, and not at all after a failed load. -/
theorem main_loop_release (w : World) (args : Launch_args) (I D : List String) :
    ∀ (fuel : Nat) (imloaded : Bool) (iters : Int) (b : Option Nat) (calls : Nat),
      iters.toNat < fuel →
      (main_loop w args I D fuel imloaded iters b calls).status ≠ .out_of_fuel ∧
      (main_loop w args I D fuel imloaded iters b calls).trace.count .initializeCUDA = 0 ∧
      ((main_loop w args I D fuel imloaded iters b calls).status = .returned 0 →
        imloaded = true →
        (∀ e ∈ (main_loop w args I D fuel imloaded iters b calls).trace, e.failed_load = false) →
        (main_loop w args I D fuel imloaded iters b calls).trace.count .freeGPUMemory = 1) ∧
      ((imloaded = false ∨
          ∃ e ∈ (main_loop w args I D fuel imloaded iters b calls).trace, e.failed_load = true) →
        (main_loop w args I D fuel imloaded iters b calls).trace.count .freeGPUMemory = 0 ∧
        (main_loop w args I D fuel imloaded iters b calls).status = .returned 0) := by
  intro fuel
  induction fuel with
  | zero => intro _ _ _ _ h; omega
  | succ fuel ih =>
    intro imloaded iters b calls hfuel
    unfold main_loop
    cases imloaded with
    | false => simp [main_exit]
    | true =>
      simp only [if_true]
      split
      · rename_i hpos
        cases b with
        | none => rcases results_cases args with h | h <;> simp [h, Event.failed_load]
        | some b =>
          simp only []
          split
          · rename_i i z hi hz
            have hlt : (iters - 1).toNat < fuel := by omega
            have := ih (w.setNextImages calls) (iters - 1) (some (b + 1)) (calls + 1) hlt
            revert this
            generalize main_loop w args I D fuel (w.setNextImages calls) (iters - 1)
              (some (b + 1)) (calls + 1) = r
            generalize w.setNextImages calls = res
            rintro ⟨h1, h2, h3, h4⟩
            cases res with
            | false =>
              have h5 := h4 (Or.inl rfl)
              rcases results_cases args with h | h <;>
                simp [h, Event.failed_load, h1, h2, h5, List.count_cons]
            | true =>
              simp only [forall_true_left] at h3
              rcases results_cases args with h | h <;>
                simp [h, Event.failed_load, h1, h2, List.count_cons] <;>
                exact ⟨h3, fun x hx hf => h4 (Or.inr ⟨x, hx, hf⟩)⟩
          · rcases results_cases args with h | h <;> simp [h, Event.failed_load]
      · rcases results_cases args with h | h <;> simp [h, Event.failed_load, main_exit]

theorem main_session_release (w : World) (args : Launch_args) (I D : List String) (iters : Int)
    (b : Option Nat) :
    (main_session w args I D iters b).status ≠ .out_of_fuel ∧
    (main_session w args I D iters b).trace.count .initializeCUDA = 1 ∧
    ((main_session w args I D iters b).status = .returned 0 →
      (∀ e ∈ (main_session w args I D iters b).trace, e.failed_load = false) →
      (main_session w args I D iters b).trace.count .freeGPUMemory = 1) ∧
    ((∃ e ∈ (main_session w args I D iters b).trace, e.failed_load = true) →
      (main_session w args I D iters b).trace.count .freeGPUMemory = 0 ∧
      (main_session w args I D iters b).status = .returned 0) := by
  have := main_loop_release w args I D (iters.toNat + 1) w.loadRGBDFrames iters b 0 (by omega)
  unfold main_session
  revert this
  generalize main_loop w args I D (iters.toNat + 1) w.loadRGBDFrames iters b 0 = r
  generalize w.loadRGBDFrames = res
  rintro ⟨h1, h2, h3, h4⟩
  cases res with
  | false =>
    have h5 := h4 (Or.inl rfl)
    simp [Event.failed_load, h1, h2, h5, List.count_cons]
  | true =>
    simp only [forall_true_left] at h3
    simp [Event.failed_load, h1, h2, List.count_cons]
    exact ⟨h3, fun x hx hf => h4 (Or.inr ⟨x, hx, hf⟩)⟩

/-- The section "Main operations" either stops at the indexing of the
listings, before any call but the constructor, or sets the initial paths and
enters the session. -/
theorem main_operations_cases (w : World) (args : Launch_args) :
    main_operations w args =
      ⟨[.PD_flow_opencv args.rows args.output_filename_root], .undefined⟩ ∨
    ∃ i1 i2 z1 z2 I D iters b, main_operations w args =
      Run.after [.PD_flow_opencv args.rows args.output_filename_root,
        .setInitialImagesPath i1 i2 z1 z2] (main_session w args I D iters b) := by
  unfold main_operations
  split
  · simp only []
    split
    · exact Or.inr ⟨_, _, _, _, _, _, _, _, rfl⟩
    · exact Or.inl rfl
  · exact Or.inr ⟨_, _, _, _, _, _, _, _, rfl⟩

theorem main_operations_release (w : World) (args : Launch_args)
    (h : Event.initializeCUDA ∈ (main_operations w args).trace) :
    (main_operations w args).status ≠ .out_of_fuel ∧
    (main_operations w args).trace.count .initializeCUDA = 1 ∧
    ((main_operations w args).status = .returned 0 →
      (∀ e ∈ (main_operations w args).trace, e.failed_load = false) →
      (main_operations w args).trace.count .freeGPUMemory = 1) ∧
    ((∃ e ∈ (main_operations w args).trace, e.failed_load = true) →
      (main_operations w args).trace.count .freeGPUMemory = 0 ∧
      (main_operations w args).status = .returned 0) := by
  rcases main_operations_cases w args with hu | ⟨i1, i2, z1, z2, I, D, iters, b, hs⟩
  · rw [hu] at h
    simp at h
  · rw [hs]
    have := main_session_release w args I D iters b
    revert this
    generalize main_session w args I D iters b = r
    rintro ⟨h1, h2, h3, h4⟩
    simp [Event.failed_load, h1, h2, List.count_cons]
    exact ⟨h3, fun x hx hf => h4 ⟨x, hx, hf⟩⟩

/-- The fuel given by `main_session` is enough: no run of `main` ends for lack
of fuel. -/
theorem main_total (w : World) (argv : List String) :
    (main w argv).status ≠ .out_of_fuel := by
  unfold main
  split
  · simp
  · split
    · simp
    · rename_i args _ _
      rcases main_operations_cases w args with hu | ⟨i1, i2, z1, z2, I, D, iters, b, hs⟩
      · rw [hu]; simp
      · rw [hs]
        exact (main_session_release w args I D iters b).1

/-- C1 as stated fails: a run whose initial load fails, and a run whose first
advance load fails, both reach `initializeCUDA` and return without any call
of `freeGPUMemory`. -/
theorem release_skipped_after_failed_load :
    (Event.initializeCUDA ∈ (main (plain_world false fun _ => true) ["pdflow"]).trace ∧
      (main (plain_world false fun _ => true) ["pdflow"]).trace.count .initializeCUDA = 1 ∧
      (main (plain_world false fun _ => true) ["pdflow"]).trace.count .freeGPUMemory = 0) ∧
    (Event.initializeCUDA ∈
        (main (dir_world ["rgb/a.png", "rgb/b.png", "rgb/c.png"]
          ["depth/1.png", "depth/2.png", "depth/3.png"] true fun _ => false)
          ["pdflow", "--idir", "rgb", "--zdir", "depth"]).trace ∧
      (main (dir_world ["rgb/a.png", "rgb/b.png", "rgb/c.png"]
          ["depth/1.png", "depth/2.png", "depth/3.png"] true fun _ => false)
          ["pdflow", "--idir", "rgb", "--zdir", "depth"]).trace.count .freeGPUMemory = 0) := by
  decide

/-- C1, amended: in every run of `main` that reaches `initializeCUDA` the
acquire is called exactly once; `freeGPUMemory` is called exactly once when
`main` returns with every load of the run successful (the batch is
exhausted), and not at all when a load of the run failed (the initial
`loadRGBDFrames` or a later `setNextImages`), in which case `main` still
returns 0: the release is guarded by `if (imloaded)`. -/
theorem acquire_once_release_guarded (w : World) (argv : List String)
    (h : Event.initializeCUDA ∈ (main w argv).trace) :
    (main w argv).trace.count .initializeCUDA = 1 ∧
    ((main w argv).status = .returned 0 →
      (∀ e ∈ (main w argv).trace, e.failed_load = false) →
      (main w argv).trace.count .freeGPUMemory = 1) ∧
    ((∃ e ∈ (main w argv).trace, e.failed_load = true) →
      (main w argv).trace.count .freeGPUMemory = 0 ∧ (main w argv).status = .returned 0) := by
  unfold main at h ⊢
  split
  · rename_i he; rw [he] at h; simp at h
  · rename_i ok args he
    rw [he] at h
    simp only [] at h ⊢
    split
    · rename_i hu; rw [if_pos hu] at h; simp at h
    · rename_i hu; rw [if_neg hu] at h
      exact (main_operations_release w args h).2

theorem acquire_once_release_guarded_witness :
    (main world3 ["pdflow", "--idir", "rgb", "--zdir", "depth"]).trace.count
        .initializeCUDA = 1 ∧
    (main world3 ["pdflow", "--idir", "rgb", "--zdir", "depth"]).trace.count
        .freeGPUMemory = 1 :=
  have h := acquire_once_release_guarded world3 ["pdflow", "--idir", "rgb", "--zdir", "depth"]
    (by decide)
  ⟨h.1, h.2.1 (by decide) (by decide)⟩

/-- C2, at inputs where it fails: in directory mode with one matching
intensity file, with one matching depth file, or with none at all, `main`
constructs the solver and then indexes positions 0 and 1 of the listings;
nothing checks the sizes and no failure is signalled. -/
theorem short_listing_is_indexed :
    main (dir_world ["rgb/a.png"] ["depth/1.png", "depth/2.png", "depth/3.png"] true
        fun _ => true) ["pdflow", "--idir", "rgb", "--zdir", "depth"] =
      ⟨[.PD_flow_opencv 240 "pdflow"], .undefined⟩ ∧
    main (dir_world ["rgb/a.png", "rgb/b.png"] ["depth/1.png"] true fun _ => true)
        ["pdflow", "--idir", "rgb", "--zdir", "depth"] =
      ⟨[.PD_flow_opencv 240 "pdflow"], .undefined⟩ ∧
    main (dir_world [] [] true fun _ => true) ["pdflow", "--idir", "rgb", "--zdir", "depth"] =
      ⟨[.PD_flow_opencv 240 "pdflow"], .undefined⟩ := by
  decide

/-- When every advance load succeeds and the depth vector is as long as the
intensity vector, the loop solves once per remaining frame and then releases. -/
theorem main_loop_all_loaded (w : World) (args : Launch_args) (I D : List String)
    (hall : ∀ j, w.setNextImages j = true) :
    ∀ (Is Zs : List String) (b calls fuel : Nat), I.drop b = Is → D.drop b = Zs →
      Is.length ≤ Zs.length → Is.length < fuel →
      main_loop w args I D fuel true (Is.length + 1) (some b) calls =
        ⟨.solveSceneFlowGPU :: results args ++ (List.zip Is Zs).flatMap (advance args) ++
          [.freeGPUMemory], .returned 0⟩ := by
  intro Is
  induction Is with
  | nil =>
    intro Zs b calls fuel _ _ _ hf
    obtain ⟨f, rfl⟩ : ∃ f, fuel = f + 1 := ⟨fuel - 1, by have := hf; simp only [List.length_nil] at this; omega⟩
    simp [main_loop, main_exit, Run.after]
  | cons i Is ih =>
    intro Zs b calls fuel hI hD hlen hf
    obtain ⟨f, rfl⟩ : ∃ f, fuel = f + 1 := ⟨fuel - 1, by omega⟩
    cases Zs with
    | nil => simp at hlen
    | cons z Zs =>
      have hi : I[b]? = some i := by
        have := congrArg List.head? hI
        simpa [List.head?_drop] using this
      have hz : D[b]? = some z := by
        have := congrArg List.head? hD
        simpa [List.head?_drop] using this
      have hI' : I.drop (b + 1) = Is := by
        have := congrArg List.tail hI
        simpa [List.tail_drop] using this
      have hD' : D.drop (b + 1) = Zs := by
        have := congrArg List.tail hD
        simpa [List.tail_drop] using this
      have hrec := ih Zs (b + 1) (calls + 1) f hI' hD' (by simpa using hlen) (by simpa using hf)
      rw [main_loop]
      have hpos : ((((i :: Is).length : Nat) : Int) + 1 - 1 > 0) := by simp only [List.length_cons]; omega
      have hsub : ((((i :: Is).length : Nat) : Int) + 1 - 1) = ((Is.length : Nat) : Int) + 1 := by
        simp
      simp only [if_true, hpos, hi, hz, hall, hsub, hrec]
      simp [Run.after, advance]

theorem count_solve_results (args : Launch_args) :
    (results args).count .solveSceneFlowGPU = 0 := by
  unfold results; split <;> decide

theorem count_solve_advances (args : Launch_args) (ps : List (String × String)) :
    (ps.flatMap (advance args)).count .solveSceneFlowGPU = ps.length := by
  induction ps with
  | nil => rfl
  | cons p ps ih =>
    simp [List.flatMap_cons, advance, List.count_cons, count_solve_results, ih]

/-- C3: in directory mode with sorted intensity vector `i0, i1, Is` and sorted
depth vector `z0, z1, Zs` of the same length `N`, and every load succeeding,
`main` sets the initial pair from positions 0 and 1, then alternates solve
and advance, the `k`-th advance feeding exactly the pair at position `k + 1`
in ascending order, and ends with the release; there are `N - 1` solves
(one solve and no advance when `N = 2`). -/
theorem directory_batch_trace (w : World) (argv : List String) (args : Launch_args)
    (idir zdir i0 i1 z0 z1 : String) (Is Zs : List String)
    (hparse : parse_arguments argv = .ok (true, args)) (hhelp : args.show_help = 0)
    (hidir : args.intensity_dir = some idir) (hzdir : args.depth_dir = some zdir)
    (hI : sort (get_all w idir ".png" []) = i0 :: i1 :: Is)
    (hD : sort (get_all w zdir ".png" []) = z0 :: z1 :: Zs)
    (hlen : Is.length = Zs.length)
    (hload : w.loadRGBDFrames = true) (hnext : ∀ j, w.setNextImages j = true) :
    main w argv =
      ⟨[.PD_flow_opencv args.rows args.output_filename_root,
          .setInitialImagesPath i0 i1 z0 z1, .initializeCUDA, .loadRGBDFrames true] ++
        (.solveSceneFlowGPU :: results args) ++
        (List.zip Is Zs).flatMap (advance args) ++ [.freeGPUMemory], .returned 0⟩ ∧
    (main w argv).trace.count .solveSceneFlowGPU =
      (sort (get_all w idir ".png" [])).length - 1 := by
  have hloop := main_loop_all_loaded w args (i0 :: i1 :: Is) (z0 :: z1 :: Zs) hnext Is Zs 2 0
    (Is.length + 1 + 1) rfl rfl (le_of_eq hlen) (by omega)
  have hmain : main w argv = _ := main_of_parse w argv args hparse hhelp
  have : main w argv = ⟨[.PD_flow_opencv args.rows args.output_filename_root,
          .setInitialImagesPath i0 i1 z0 z1, .initializeCUDA, .loadRGBDFrames true] ++
        (.solveSceneFlowGPU :: results args) ++
        (List.zip Is Zs).flatMap (advance args) ++ [.freeGPUMemory], .returned 0⟩ := by
    rw [hmain]
    simp only [main_operations, hidir, hzdir, hI, hD, main_session, hload]
    simp [Run.after, hloop]
  refine ⟨this, ?_⟩
  rw [this, hI]
  simp [List.count_cons, count_solve_results, count_solve_advances, hlen]

theorem directory_batch_trace_witness :
    main world3 ["pdflow", "--idir", "rgb", "--zdir", "depth", "--no-show"] =
      ⟨[.PD_flow_opencv 240 "pdflow",
          .setInitialImagesPath "rgb/a.png" "rgb/b.png" "depth/z0.png" "depth/z1.png",
          .initializeCUDA, .loadRGBDFrames true] ++
        (.solveSceneFlowGPU :: results
          { defaults with intensity_dir := some "rgb", depth_dir := some "depth",
                          no_show := true }) ++
        (List.zip ["rgb/c.png"] ["depth/z2.png"]).flatMap (advance
          { defaults with intensity_dir := some "rgb", depth_dir := some "depth",
                          no_show := true }) ++ [.freeGPUMemory], .returned 0⟩ ∧
    (main world3 ["pdflow", "--idir", "rgb", "--zdir", "depth", "--no-show"]).trace.count
        .solveSceneFlowGPU = (sort (get_all world3 "rgb" ".png" [])).length - 1 :=
  directory_batch_trace world3 ["pdflow", "--idir", "rgb", "--zdir", "depth", "--no-show"]
    { defaults with intensity_dir := some "rgb", depth_dir := some "depth", no_show := true }
    "rgb" "depth" "rgb/a.png" "rgb/b.png" "depth/z0.png" "depth/z1.png" ["rgb/c.png"]
    ["depth/z2.png"] (by decide) (by decide) (by decide)
    (by decide) (by decide) (by decide) (by decide) (by decide) (fun _ => rfl)

theorem main_loop_congr (w1 w2 : World) (args : Launch_args) (I D : List String)
    (hnext : w2.setNextImages = w1.setNextImages) :
    ∀ (fuel : Nat) (imloaded : Bool) (iters : Int) (b : Option Nat) (calls : Nat),
      main_loop w2 args I D fuel imloaded iters b calls =
        main_loop w1 args I D fuel imloaded iters b calls := by
  intro fuel
  induction fuel with
  | zero => intros; rfl
  | succ fuel ih =>
    intro imloaded iters b calls
    simp only [main_loop, hnext, ih]

theorem get_all_perm (w1 w2 : World) (root ext : String)
    (hexists : w2.path_exists = w1.path_exists) (hisdir : w2.is_directory = w1.is_directory)
    (hperm : ∀ root, (w2.directory_iterator root).Perm (w1.directory_iterator root)) :
    (get_all w2 root ext []).Perm (get_all w1 root ext []) := by
  unfold get_all
  rw [hexists, hisdir]
  split
  · exact List.Perm.refl _
  · simpa using ((hperm root).filter _).map _

theorem main_operations_congr (w1 w2 : World) (args : Launch_args)
    (hexists : w2.path_exists = w1.path_exists) (hisdir : w2.is_directory = w1.is_directory)
    (hload : w2.loadRGBDFrames = w1.loadRGBDFrames)
    (hnext : w2.setNextImages = w1.setNextImages)
    (hperm : ∀ root, (w2.directory_iterator root).Perm (w1.directory_iterator root)) :
    main_operations w2 args = main_operations w1 args := by
  have hs : ∀ root, sort (get_all w2 root ".png" []) = sort (get_all w1 root ".png" []) :=
    fun root => sort_eq_of_perm (get_all_perm w1 w2 root ".png" hexists hisdir hperm)
  simp only [main_operations, main_session, hs, hload, main_loop_congr w1 w2 args _ _ hnext]

theorem frames_handed_append (xs ys : List Event) :
    frames_handed (xs ++ ys) = frames_handed xs ++ frames_handed ys := by
  induction xs with
  | nil => rfl
  | cons x xs ih => cases x <;> simp [frames_handed, ih]

theorem frames_handed_results (args : Launch_args) : frames_handed (results args) = [] := by
  rcases results_cases args with h | h <;> simp [h, frames_handed]

theorem zip_drop_cons (I D : List String) (b : Nat) (i z : String)
    (hi : I[b]? = some i) (hz : D[b]? = some z) :
    List.zip (I.drop b) (D.drop b) = (i, z) :: List.zip (I.drop (b + 1)) (D.drop (b + 1)) := by
  obtain ⟨hb, rfl⟩ := List.getElem?_eq_some_iff.1 hi
  obtain ⟨hb', rfl⟩ := List.getElem?_eq_some_iff.1 hz
  rw [List.drop_eq_getElem_cons hb, List.drop_eq_getElem_cons hb']
  rfl

theorem main_loop_frames (w : World) (args : Launch_args) (I D : List String) :
    ∀ (fuel : Nat) (imloaded : Bool) (iters : Int) (b calls : Nat),
      frames_handed (main_loop w args I D fuel imloaded iters (some b) calls).trace <+:
        List.zip (I.drop b) (D.drop b) := by
  intro fuel
  induction fuel with
  | zero => intros; simp [main_loop, frames_handed]
  | succ fuel ih =>
    intro imloaded iters b calls
    unfold main_loop
    cases imloaded with
    | false => simp [main_exit, frames_handed]
    | true =>
      simp only [if_true]
      split
      · split
        · rename_i i z hi hz
          rw [zip_drop_cons I D b i z hi hz]
          simpa [frames_handed, frames_handed_append, frames_handed_results,
            List.prefix_cons_inj] using ih (w.setNextImages calls) (iters - 1) (b + 1) (calls + 1)
        · simp [frames_handed, frames_handed_append, frames_handed_results]
      · simp [main_exit, frames_handed, frames_handed_append, frames_handed_results]

theorem main_operations_frames (w : World) (args : Launch_args) (idir zdir : String)
    (hidir : args.intensity_dir = some idir) (hzdir : args.depth_dir = some zdir) :
    frames_handed (main_operations w args).trace <+:
      List.zip (sort (get_all w idir ".png" [])) (sort (get_all w zdir ".png" [])) := by
  simp only [main_operations, hidir, hzdir]
  generalize sort (get_all w idir ".png" []) = I
  generalize sort (get_all w zdir ".png" []) = D
  match I, D with
  | [], _ => simp [frames_handed]
  | [_], _ => simp [frames_handed]
  | _ :: _ :: _, [] => simp [frames_handed]
  | _ :: _ :: _, [_] => simp [frames_handed]
  | i0 :: i1 :: Is, z0 :: z1 :: Zs =>
    have h := main_loop_frames w args (i0 :: i1 :: Is) (z0 :: z1 :: Zs)
      ((((i0 :: i1 :: Is).length : Int) - 1).toNat + 1) w.loadRGBDFrames
      (((i0 :: i1 :: Is).length : Int) - 1) 2 0
    simpa [main_session, frames_handed, List.prefix_cons_inj] using h

/-- C9: two worlds that differ only in the order in which each directory is
listed give the same run; in directory mode each vector is the ascending
arrangement of the matching files of its own directory, the same for both
listings, and the frames handed to the solver are an initial part of the
position-wise pairing of the two sorted vectors. -/
theorem listing_order_irrelevant (w1 w2 : World) (argv : List String)
    (hexists : w2.path_exists = w1.path_exists) (hisdir : w2.is_directory = w1.is_directory)
    (hload : w2.loadRGBDFrames = w1.loadRGBDFrames)
    (hnext : w2.setNextImages = w1.setNextImages)
    (hperm : ∀ root, (w2.directory_iterator root).Perm (w1.directory_iterator root)) :
    main w2 argv = main w1 argv ∧
    ∀ (args : Launch_args) (idir zdir : String),
      parse_arguments argv = .ok (true, args) → args.show_help = 0 →
      args.intensity_dir = some idir → args.depth_dir = some zdir →
        List.Sorted path_le (sort (get_all w1 idir ".png" [])) ∧
        (sort (get_all w1 idir ".png" [])).Perm (get_all w1 idir ".png" []) ∧
        List.Sorted path_le (sort (get_all w1 zdir ".png" [])) ∧
        (sort (get_all w1 zdir ".png" [])).Perm (get_all w1 zdir ".png" []) ∧
        sort (get_all w2 idir ".png" []) = sort (get_all w1 idir ".png" []) ∧
        sort (get_all w2 zdir ".png" []) = sort (get_all w1 zdir ".png" []) ∧
        frames_handed (main w1 argv).trace <+:
          List.zip (sort (get_all w1 idir ".png" [])) (sort (get_all w1 zdir ".png" [])) := by
  constructor
  · unfold main
    split
    · rfl
    · simp only [main_operations_congr w1 w2 _ hexists hisdir hload hnext hperm]
  · intro args idir zdir hparse hhelp hidir hzdir
    refine ⟨List.sorted_insertionSort _ _, List.perm_insertionSort _ _,
      List.sorted_insertionSort _ _, List.perm_insertionSort _ _,
      sort_eq_of_perm (get_all_perm w1 w2 idir ".png" hexists hisdir hperm),
      sort_eq_of_perm (get_all_perm w1 w2 zdir ".png" hexists hisdir hperm), ?_⟩
    rw [main_of_parse w1 argv args hparse hhelp]
    exact main_operations_frames w1 args idir zdir hidir hzdir

theorem listing_order_irrelevant_witness :
    main (dir_world ["rgb/a.png", "rgb/b.png", "rgb/c.png"] ["depth/3.png", "depth/1.png",
        "depth/2.png"] true fun _ => true) ["pdflow", "--idir", "rgb", "--zdir", "depth"] =
      main (dir_world ["rgb/c.png", "rgb/a.png", "rgb/b.png"] ["depth/1.png", "depth/2.png",
        "depth/3.png"] true fun _ => true) ["pdflow", "--idir", "rgb", "--zdir", "depth"] ∧
    sort (get_all (dir_world ["rgb/a.png", "rgb/b.png", "rgb/c.png"] ["depth/3.png",
        "depth/1.png", "depth/2.png"] true fun _ => true) "depth" ".png" []) =
      sort (get_all (dir_world ["rgb/c.png", "rgb/a.png", "rgb/b.png"] ["depth/1.png",
        "depth/2.png", "depth/3.png"] true fun _ => true) "depth" ".png" []) :=
  have h := listing_order_irrelevant
    (dir_world ["rgb/c.png", "rgb/a.png", "rgb/b.png"] ["depth/1.png", "depth/2.png",
        "depth/3.png"] true fun _ => true)
    (dir_world ["rgb/a.png", "rgb/b.png", "rgb/c.png"] ["depth/3.png", "depth/1.png",
        "depth/2.png"] true fun _ => true)
    ["pdflow", "--idir", "rgb", "--zdir", "depth"] rfl rfl rfl rfl
    (fun root => by
      simp only [dir_world]
      split
      · decide
      · split
        · decide
        · exact List.Perm.refl _)
  ⟨h.1, (h.2 { defaults with intensity_dir := some "rgb", depth_dir := some "depth" }
    "rgb" "depth" (by decide) (by decide) (by decide) (by decide)).2.2.2.2.2.1⟩

/-- C10: in explicit-file mode (a directory is missing) with the initial load
succeeding, `main` is exactly: constructor, the four explicit paths
(intensity 1, intensity 2, depth 1, depth 2), acquire, load, one solve, its
results, release, and returns 0; one solve, one artifact, no
`setNextImages`, no indexing of the empty vectors. -/
theorem explicit_mode_trace (w : World) (argv : List String) (args : Launch_args)
    (hparse : parse_arguments argv = .ok (true, args)) (hhelp : args.show_help = 0)
    (hmode : args.intensity_dir = none ∨ args.depth_dir = none)
    (hload : w.loadRGBDFrames = true) :
    main w argv =
      ⟨[.PD_flow_opencv args.rows args.output_filename_root,
          .setInitialImagesPath args.intensity_filename_1 args.intensity_filename_2
            args.depth_filename_1 args.depth_filename_2,
          .initializeCUDA, .loadRGBDFrames true, .solveSceneFlowGPU] ++ results args ++
        [.freeGPUMemory], .returned 0⟩ ∧
    (main w argv).trace.count .solveSceneFlowGPU = 1 ∧
    (main w argv).trace.countP Event.artifact = 1 ∧
    (main w argv).trace.countP Event.advance = 0 := by
  have hmain : main w argv = ⟨[.PD_flow_opencv args.rows args.output_filename_root,
          .setInitialImagesPath args.intensity_filename_1 args.intensity_filename_2
            args.depth_filename_1 args.depth_filename_2,
          .initializeCUDA, .loadRGBDFrames true, .solveSceneFlowGPU] ++ results args ++
        [.freeGPUMemory], .returned 0⟩ := by
    rw [main_of_parse w argv args hparse hhelp]
    unfold main_operations
    rcases hmode with h | h
    · simp [h, main_session, hload, main_loop, main_exit, Run.after]
    · cases hi : args.intensity_dir <;>
        simp [h, hi, main_session, hload, main_loop, main_exit, Run.after]
  refine ⟨hmain, ?_⟩
  rw [hmain]
  rcases results_cases args with h | h <;>
    simp [h, List.count_cons, List.countP_cons, Event.artifact, Event.advance]

theorem explicit_mode_trace_witness :
    main (plain_world true fun _ => false) ["pdflow", "--i1", "a.png", "--zdir", "depth"] =
      ⟨[.PD_flow_opencv 240 "pdflow", .setInitialImagesPath "a.png" "i2.png" "z1.png" "z2.png",
        .initializeCUDA, .loadRGBDFrames true, .solveSceneFlowGPU, .showImages,
        .showAndSaveResults, .printf_push_any_key, .waitKey, .freeGPUMemory], .returned 0⟩ :=
  (explicit_mode_trace (plain_world true fun _ => false)
    ["pdflow", "--i1", "a.png", "--zdir", "depth"]
    { defaults with intensity_filename_1 := "a.png", depth_dir := some "depth" }
    (by decide) (by decide) (Or.inl (by decide)) (by decide)).1

/-! ## The argument parser, continued -/

theorem parse_loop_no_show_commute (ts : List String) (a0 : Launch_args) :
    parse_loop ts { a0 with no_show := true } =
      (parse_loop ts a0).map fun r => (r.1, { r.2 with no_show := true }) := by
  induction ts, a0 using parse_loop.induct
  case case21 => simp only [parse_loop_no_show]; assumption
  case case22 t r a _ _ _ _ _ _ _ _ _ _ =>
    have ht : t ∉ ["--help", "--rows", "--i1", "--i2", "--idir", "--z1", "--z2", "--zdir",
        "--out", "--no-show"] := by simp; tauto
    rw [parse_loop_unrecognised t r _ ht, parse_loop_unrecognised t r _ ht]
    rfl
  all_goals simp_all [parse_loop, parse_loop_help, Except.map]

/-- C17: `--no-show` takes no argument.  Parsing `--no-show` followed by `ts`
ends as parsing `ts` alone does (same exception, or same return value), with
the same configuration except that `no_show` is true; so the token after
`--no-show` is read in option position. -/
theorem no_show_takes_no_argument (prog : String) (ts : List String) :
    parse_arguments (prog :: "--no-show" :: ts) =
      (parse_arguments (prog :: ts)).map fun r => (r.1, { r.2 with no_show := true }) := by
  simp only [parse_arguments, List.drop_succ_cons, List.drop_zero, parse_loop_no_show]
  exact parse_loop_no_show_commute ts defaults

theorem parse_loop_other (t : String) (rest : List String) (a : Launch_args)
    (h1 : ¬t = "--help") (h2 : ¬t = "--rows") (h3 : ¬t = "--i1") (h4 : ¬t = "--i2")
    (h5 : ¬t = "--idir") (h6 : ¬t = "--z1") (h7 : ¬t = "--z2") (h8 : ¬t = "--zdir")
    (h9 : ¬t = "--out") (h10 : ¬t = "--no-show") :
    parse_loop (t :: rest) a = .ok (false, a) :=
  parse_loop_unrecognised t rest a (by simp; tauto)

set_option maxHeartbeats 4000000 in
/-- Starting the loop with one path field already set to `v` changes nothing
but that field: same exception or same return value, and the field is `v`
unless the tokens set it again. -/
theorem parse_loop_set_value (flag v : String)
    (hflag : flag ∈ ["--i1", "--i2", "--idir", "--z1", "--z2", "--zdir", "--out"])
    (ts : List String) (a0 : Launch_args) :
    (∀ e, parse_loop ts a0 = .error e → parse_loop ts (set_value flag v a0) = .error e) ∧
    (∀ b a, parse_loop ts a0 = .ok (b, a) →
      parse_loop ts (set_value flag v a0) = .ok (b, set_value flag v a) ∨
      (flag ∈ ts ∧ parse_loop ts (set_value flag v a0) = .ok (b, a))) := by
  simp only [List.mem_cons, List.mem_singleton, List.not_mem_nil, or_false] at hflag
  rcases hflag with rfl | rfl | rfl | rfl | rfl | rfl | rfl
  all_goals
    simp only [set_value, String.reduceEq, if_true, if_false]
    induction ts, a0 using parse_loop.induct
    all_goals
      simp_all [parse_loop, parse_loop_help, parse_loop_no_show, parse_loop_other,
        -Bool.forall_bool]
    all_goals
      obtain ⟨-, ih⟩ := ‹_ ∧ _›
      intro b a h
      rcases ih b a h with h1 | ⟨h1, h2⟩
      · exact Or.inl h1
      · exact Or.inr ⟨by simp [h1], h2⟩


/-- C19: a path option (`--i1`, `--i2`, `--idir`, `--z1`, `--z2`, `--zdir`,
`--out`) with its value `v` consumes two tokens and the loop goes on with
`ts` in option position; parsing ends as parsing `ts` alone does (same
exception, or same return value), and the configuration is that of `ts` alone
with the flag's field set to `v`, or exactly that of `ts` alone when the flag
occurs again in `ts`.  The value `v` is any token, flag-like or not. -/
theorem path_option_frame (prog flag v : String) (ts : List String)
    (hflag : flag ∈ ["--i1", "--i2", "--idir", "--z1", "--z2", "--zdir", "--out"]) :
    parse_arguments (prog :: flag :: v :: ts) = parse_loop ts (set_value flag v defaults) ∧
    (∀ e, parse_arguments (prog :: ts) = .error e →
      parse_arguments (prog :: flag :: v :: ts) = .error e) ∧
    (∀ b a, parse_arguments (prog :: ts) = .ok (b, a) →
      parse_arguments (prog :: flag :: v :: ts) = .ok (b, set_value flag v a) ∨
      (flag ∈ ts ∧ parse_arguments (prog :: flag :: v :: ts) = .ok (b, a))) := by
  have hstep : parse_arguments (prog :: flag :: v :: ts) =
      parse_loop ts (set_value flag v defaults) := by
    simp only [List.mem_cons, List.mem_singleton, List.not_mem_nil, or_false] at hflag
    rcases hflag with rfl | rfl | rfl | rfl | rfl | rfl | rfl <;>
      simp [parse_arguments, parse_loop, set_value]
  have h := parse_loop_set_value flag v hflag ts defaults
  simp only [parse_arguments, List.drop_succ_cons, List.drop_zero] at hstep ⊢
  rw [hstep]
  exact ⟨rfl, h.1, h.2⟩

theorem path_option_frame_witness :
    parse_arguments ("pdflow" :: "--out" :: "--help" :: ["--rows", "60", "--z1", "d.png"]) =
      .ok (true, set_value "--out" "--help"
        { defaults with rows := 60, depth_filename_1 := "d.png" }) ∨
    ("--out" ∈ ["--rows", "60", "--z1", "d.png"] ∧
      parse_arguments ("pdflow" :: "--out" :: "--help" :: ["--rows", "60", "--z1", "d.png"]) =
        .ok (true, { defaults with rows := 60, depth_filename_1 := "d.png" })) :=
  (path_option_frame "pdflow" "--out" "--help" ["--rows", "60", "--z1", "d.png"]
    (by decide)).2.2 true _ (by decide)

theorem rows_ok_toNat (rows : Int) (h : rows_ok rows = true) :
    rows.toNat ∈ [15, 30, 60, 120, 240, 480] ∧ (rows.toNat : Int) = rows := by
  simp only [rows_ok, Bool.or_eq_true, beq_iff_eq] at h
  rcases h with ((((h | h) | h) | h) | h) | h <;> subst h <;> decide

/-- Every configuration returned by the loop has an accepted row count when
the loop was entered with one. -/
theorem parse_loop_rows_valid (ts : List String) (a0 : Launch_args) (b : Bool)
    (a : Launch_args) (h0 : a0.rows ∈ [15, 30, 60, 120, 240, 480])
    (h : parse_loop ts a0 = .ok (b, a)) : a.rows ∈ [15, 30, 60, 120, 240, 480] := by
  induction ts, a0 using parse_loop.induct
  case case2 =>
    simp only [parse_loop_help, Except.ok.injEq, Prod.mk.injEq] at h
    obtain ⟨-, rfl⟩ := h
    exact h0
  case case5 args v rest' rows hs hok _ ih =>
    simp only [parse_loop, hs, hok, if_true] at h
    simp at h
    exact ih (rows_ok_toNat rows hok).1 h
  all_goals
    simp_all [parse_loop, parse_loop_help, parse_loop_no_show, parse_loop_other,
      -Bool.forall_bool]

/-- C15: whatever `parse_arguments` returns, true or false, `rows` is one of
15, 30, 60, 120, 240, 480; and after a valid `--rows` option that is followed
by no further `--rows` token, `rows` is the value of that option. -/
theorem rows_in_enumerated_set (prog : String) :
    (∀ (toks : List String) (b : Bool) (a : Launch_args),
      parse_arguments (prog :: toks) = .ok (b, a) → a.rows ∈ [15, 30, 60, 120, 240, 480]) ∧
    (∀ (pre post : List String) (v : String) (r : Int) (a0 a : Launch_args) (b : Bool),
      parse_arguments (prog :: pre) = .ok (true, a0) → a0.show_help = 0 →
      stoi v = .ok r → r ∈ ([15, 30, 60, 120, 240, 480] : List Int) → "--rows" ∉ post →
      parse_arguments (prog :: (pre ++ "--rows" :: v :: post)) = .ok (b, a) →
        (a.rows : Int) = r) := by
  constructor
  · intro toks b a h
    simp only [parse_arguments, List.drop_succ_cons, List.drop_zero] at h
    exact parse_loop_rows_valid toks defaults b a (by decide) h
  · intro pre post v r a0 a b hpre hhelp hv hr hpost h
    rw [parse_arguments_append prog pre _ a0 hpre hhelp] at h
    have hok : rows_ok r = true := by
      simp at hr
      rcases hr with h | h | h | h | h | h <;> subst h <;> decide
    simp only [parse_loop, hv, hok, if_true] at h
    simp at h
    rw [(parse_loop_frame post _ b a h).1 hpost]
    exact (rows_ok_toNat r hok).2

theorem rows_in_enumerated_set_witness :
    (60 : Nat) ∈ [15, 30, 60, 120, 240, 480] ∧ ((60 : Nat) : Int) = 60 :=
  ⟨(rows_in_enumerated_set "pdflow").1 ["--rows", "120", "--rows", "60", "--rows"] false
      { defaults with rows := 60 } (by decide),
   (rows_in_enumerated_set "pdflow").2 ["--rows", "120"] ["--no-show", "-x"] "+60" 60
      { defaults with rows := 120 } { defaults with rows := 60, no_show := true } false
      (by decide) (by decide) (by decide) (by decide) (by decide) (by decide)⟩

/-- C16, at inputs where it fails: the value `abc` makes `stoi` throw
`invalid_argument`, so `parse_arguments` does not return and `main` ends in
`std::terminate`; the values `240px` and `120px` are read as 240 and 120 and
accepted, `parse_arguments` returns true. -/
theorem rows_token_not_validated :
    parse_arguments ["pdflow", "--rows", "abc"] = .error .invalid_argument ∧
    (∀ w : World, main w ["pdflow", "--rows", "abc"] = ⟨[], .terminated⟩) ∧
    parse_arguments ["pdflow", "--rows", "240px"] = .ok (true, defaults) ∧
    parse_arguments ["pdflow", "--rows", "120px"] = .ok (true, { defaults with rows := 120 }) := by
  refine ⟨by decide, fun w => ?_, by decide, by decide⟩
  have h : parse_arguments ["pdflow", "--rows", "abc"] = .error .invalid_argument := by decide
  simp [main, h]

/-! ## The processing loop, continued -/

/-- The shapes of a run of `main`: an exception of `stoi`, the usage exit, the
stop at the indexing of a short listing, or a session. -/
theorem main_cases (w : World) (argv : List String) :
    main w argv = ⟨[], .terminated⟩ ∨
    ((∃ b a, parse_arguments argv = .ok (b, a) ∧ (b = false ∨ a.show_help ≠ 0)) ∧
      main w argv = ⟨[.printf_usage, .getwchar], .returned 1⟩) ∨
    ∃ args, parse_arguments argv = .ok (true, args) ∧ args.show_help = 0 ∧
      (main w argv = ⟨[.PD_flow_opencv args.rows args.output_filename_root], .undefined⟩ ∨
       ∃ i1 i2 z1 z2 I D iters b, main w argv =
        Run.after [.PD_flow_opencv args.rows args.output_filename_root,
            .setInitialImagesPath i1 i2 z1 z2, .initializeCUDA,
            .loadRGBDFrames w.loadRGBDFrames]
          (main_loop w args I D (iters.toNat + 1) w.loadRGBDFrames iters b 0)) := by
  unfold main
  split
  · exact Or.inl rfl
  · rename_i ok args hp
    split
    · rename_i hu
      refine Or.inr (Or.inl ⟨⟨ok, args, hp, ?_⟩, rfl⟩)
      cases ok <;> simp_all
    · rename_i hu
      have hok : ok = true := by cases ok <;> simp_all
      have hh : args.show_help = 0 := by
        subst hok
        simpa using hu
      subst hok
      refine Or.inr (Or.inr ⟨args, hp, hh, ?_⟩)
      rcases main_operations_cases w args with hc | ⟨i1, i2, z1, z2, I, D, iters, b, hs⟩
      · exact Or.inl hc
      · exact Or.inr ⟨i1, i2, z1, z2, I, D, iters, b, by rw [hs]; rfl⟩

theorem results_counts (args : Launch_args) :
    (results args).countP Event.artifact = 1 ∧
    (results args).count .solveSceneFlowGPU = 0 ∧
    (results args).countP Event.advance = 0 ∧
    (results args).count .getwchar = 0 ∧
    (results args).count .waitKey = (if args.no_show then 0 else 1) ∧
    (∀ e ∈ results args, e.failed_load = false) ∧
    (∀ e ∈ results args, ∀ r, e ≠ .loadRGBDFrames r) := by
  unfold results
  split <;> simp_all [Event.artifact, Event.advance, Event.failed_load, List.countP_cons,
    List.count_cons]

theorem stops_append_clean (A l : List Event) (hA : ∀ e ∈ A, e.failed_load = false) :
    stops_at_failed_load (A ++ l) = stops_at_failed_load l := by
  induction A with
  | nil => rfl
  | cons x A ih =>
    have hx := hA x (by simp)
    simp [stops_at_failed_load, hx, ih (fun e he => hA e (by simp [he]))]

theorem stops_split : ∀ (l pre : List Event) (e : Event) (post : List Event),
    stops_at_failed_load l = true → l = pre ++ e :: post → e.failed_load = true → post = []
  | _, [], e, post, hs, rfl, hf => by
    simpa [stops_at_failed_load, hf] using hs
  | _, x :: pre, e, post, hs, rfl, hf => by
    cases hx : x.failed_load with
    | false =>
      have : stops_at_failed_load (pre ++ e :: post) = true := by
        simpa [stops_at_failed_load, hx] using hs
      exact stops_split _ pre e post this rfl hf
    | true =>
      simp [stops_at_failed_load, hx] at hs

/-- One pass of the loop body up to the results block, in front of any
continuation `t`. -/
theorem solve_block (args : Launch_args) (t : List Event) :
    stops_at_failed_load (.solveSceneFlowGPU :: results args ++ t) = stops_at_failed_load t ∧
    (Event.solveSceneFlowGPU :: results args ++ t).countP Event.artifact =
      t.countP Event.artifact + 1 ∧
    (Event.solveSceneFlowGPU :: results args ++ t).count .solveSceneFlowGPU =
      t.count .solveSceneFlowGPU + 1 ∧
    (Event.solveSceneFlowGPU :: results args ++ t).countP Event.advance =
      t.countP Event.advance ∧
    ((∃ e ∈ Event.solveSceneFlowGPU :: results args ++ t, e.failed_load = true) ↔
      ∃ e ∈ t, e.failed_load = true) ∧
    ((∀ e ∈ Event.solveSceneFlowGPU :: results args ++ t, ∀ r, e ≠ .loadRGBDFrames r) ↔
      ∀ e ∈ t, ∀ r, e ≠ .loadRGBDFrames r) := by
  obtain ⟨r1, r2, r3, -, -, r6, r7⟩ := results_counts args
  have hclean : ∀ e ∈ Event.solveSceneFlowGPU :: results args, e.failed_load = false := by
    intro e he
    rcases List.mem_cons.1 he with rfl | he
    · rfl
    · exact r6 e he
  refine ⟨?_, ?_, ?_, ?_, ?_, ?_⟩
  · exact stops_append_clean (.solveSceneFlowGPU :: results args) t hclean
  · simp [List.countP_cons, List.countP_append, r1, Event.artifact]; omega
  · simp [List.count_cons, List.count_append, r2]
  · simp [List.countP_cons, List.countP_append, r3, Event.advance]
  · constructor
    · rintro ⟨e, he, hf⟩
      rcases List.mem_append.1 he with he | he
      · rw [hclean e he] at hf; cases hf
      · exact ⟨e, he, hf⟩
    · rintro ⟨e, he, hf⟩
      exact ⟨e, List.mem_append.2 (Or.inr he), hf⟩
  · constructor
    · intro h e he
      exact h e (List.mem_append.2 (Or.inr he))
    · intro h e he r
      rcases List.mem_append.1 he with he | he
      · rcases List.mem_cons.1 he with rfl | he
        · simp
        · exact r7 e he r
      · exact h e he r

theorem main_loop_not_loaded (w : World) (args : Launch_args) (I D : List String)
    (fuel : Nat) (iters : Int) (b : Option Nat) (calls : Nat) :
    (main_loop w args I D fuel false iters b calls).trace = [] := by
  cases fuel <;> simp [main_loop, main_exit]

theorem main_loop_abort (w : World) (args : Launch_args) (I D : List String) :
    ∀ (fuel : Nat) (imloaded : Bool) (iters : Int) (b : Option Nat) (calls : Nat),
      stops_at_failed_load (main_loop w args I D fuel imloaded iters b calls).trace = true ∧
      (main_loop w args I D fuel imloaded iters b calls).trace.countP Event.artifact =
        (main_loop w args I D fuel imloaded iters b calls).trace.count .solveSceneFlowGPU ∧
      (∀ e ∈ (main_loop w args I D fuel imloaded iters b calls).trace,
        ∀ r, e ≠ .loadRGBDFrames r) ∧
      ((∃ e ∈ (main_loop w args I D fuel imloaded iters b calls).trace, e.failed_load = true) →
        (main_loop w args I D fuel imloaded iters b calls).trace.count .solveSceneFlowGPU =
          (main_loop w args I D fuel imloaded iters b calls).trace.countP Event.advance) := by
  intro fuel
  induction fuel with
  | zero => intros; simp [main_loop, stops_at_failed_load]
  | succ fuel ih =>
    intro imloaded iters b calls
    unfold main_loop
    cases imloaded with
    | false => simp [main_exit, stops_at_failed_load]
    | true =>
      simp only [if_true]
      split
      · cases b with
        | none =>
          obtain ⟨s1, s2, s3, s4, s5, s6⟩ := solve_block args []
          simp only [Run.after_trace, s1, s2, s3, s4, s5, s6]
          simp [stops_at_failed_load]
        | some b =>
          simp only []
          split
          · rename_i i z hi hz
            cases hres : w.setNextImages calls with
            | false =>
              obtain ⟨s1, s2, s3, s4, s5, s6⟩ :=
                solve_block args [.setNextImages i z false]
              simp only [Run.after_trace, main_loop_not_loaded, List.append_nil, s1, s2, s3,
                s4, s5, s6]
              simp [stops_at_failed_load, Event.failed_load, Event.artifact, Event.advance]
            | true =>
              obtain ⟨h1, h2, h3, h4⟩ := ih true (iters - 1) (some (b + 1)) (calls + 1)
              revert h1 h2 h3 h4
              generalize main_loop w args I D fuel true (iters - 1)
                (some (b + 1)) (calls + 1) = rec
              generalize htr : rec.trace = t
              intro h1 h2 h3 h4
              obtain ⟨s1, s2, s3, s4, s5, s6⟩ :=
                solve_block args ([.setNextImages i z true] ++ t)
              simp only [Run.after_trace, htr, s1, s2, s3, s4, s5, s6]
              simp only [List.singleton_append, stops_at_failed_load, Event.failed_load,
                List.countP_cons, List.count_cons, Event.artifact, Event.advance]
              refine ⟨by simpa using h1, by simpa using h2, ?_, ?_⟩
              · intro e he r
                rcases List.mem_cons.1 he with rfl | he
                · simp
                · exact h3 e he r
              · rintro ⟨e, he, hf⟩
                rcases List.mem_cons.1 he with rfl | he
                · simp [Event.failed_load] at hf
                · have := h4 ⟨e, he, hf⟩
                  simp
                  omega
          · obtain ⟨s1, s2, s3, s4, s5, s6⟩ := solve_block args []
            simp only [Run.after_trace, s1, s2, s3, s4, s5, s6]
            simp [stops_at_failed_load]
      · obtain ⟨s1, s2, s3, s4, s5, s6⟩ := solve_block args [.freeGPUMemory]
        simp only [Run.after_trace, main_exit, if_true, s1, s2, s3, s4, s5, s6]
        simp [stops_at_failed_load, Event.failed_load, Event.artifact]

/-- What a failed load does to a whole run of `main`. -/
theorem main_abort (w : World) (argv : List String) :
    stops_at_failed_load (main w argv).trace = true ∧
    (main w argv).trace.countP Event.artifact = (main w argv).trace.count .solveSceneFlowGPU ∧
    ((∃ e ∈ (main w argv).trace, e.failed_load = true) →
      (main w argv).status = .returned 0 ∧
      (main w argv).trace.count .solveSceneFlowGPU =
        (main w argv).trace.countP Event.advance) ∧
    (Event.loadRGBDFrames false ∈ (main w argv).trace →
      (main w argv).trace.count .solveSceneFlowGPU = 0) := by
  rcases main_cases w argv with h | ⟨-, h⟩ | ⟨args, -, -, h | ⟨i1, i2, z1, z2, I, D, iters, b, h⟩⟩
  · rw [h]; simp [stops_at_failed_load]
  · rw [h]; simp [stops_at_failed_load, Event.failed_load, Event.artifact, List.countP_cons]
  · rw [h]; simp [stops_at_failed_load, Event.failed_load, Event.artifact, List.countP_cons]
  · rw [h]
    cases hres : w.loadRGBDFrames with
    | false =>
      have hst : (main_loop w args I D (iters.toNat + 1) false iters b 0).status =
          .returned 0 := by simp [main_loop, main_exit]
      simp [main_loop_not_loaded, hst, stops_at_failed_load, Event.failed_load, Event.artifact,
        Event.advance, List.countP_cons]
    | true =>
      obtain ⟨h1, h2, h3, h4⟩ := main_loop_abort w args I D (iters.toNat + 1) true iters b 0
      obtain ⟨-, -, -, h5⟩ :=
        main_loop_release w args I D (iters.toNat + 1) true iters b 0 (by omega)
      revert h1 h2 h3 h4 h5
      generalize main_loop w args I D (iters.toNat + 1) true iters b 0 = rec
      intro h1 h2 h3 h4 h5
      simp only [Run.after_trace, Run.after_status]
      refine ⟨?_, ?_, ?_, ?_⟩
      · simpa [stops_at_failed_load, Event.failed_load] using h1
      · simpa [Event.artifact, List.countP_cons] using h2
      · rintro ⟨e, he, hf⟩
        have he' : e ∈ rec.trace := by
          simp at he
          rcases he with rfl | rfl | rfl | rfl | he
          · cases hf
          · cases hf
          · cases hf
          · cases hf
          · exact he
        refine ⟨(h5 (Or.inr ⟨e, he', hf⟩)).2, ?_⟩
        have := h4 ⟨e, he', hf⟩
        simpa [Event.advance, List.countP_cons] using this
      · intro hmem
        simp at hmem
        exact absurd rfl (h3 _ hmem false)

/-- C11: when a load fails, nothing is called after it: the failed call is the
last of the run and `main` returns 0.  The artifacts and the solves of the run
are then as many as the `setNextImages` calls made (`j` when the `j`-th
advance fails), and none when the initial `loadRGBDFrames` fails. -/
theorem load_failure_aborts (w : World) (argv : List String) (pre : List Event) (e : Event)
    (post : List Event) (h : (main w argv).trace = pre ++ e :: post)
    (hf : e.failed_load = true) :
    post = [] ∧ (main w argv).status = .returned 0 ∧
    (main w argv).trace.countP Event.artifact = (main w argv).trace.countP Event.advance ∧
    (main w argv).trace.count .solveSceneFlowGPU = (main w argv).trace.countP Event.advance ∧
    (e = .loadRGBDFrames false → (main w argv).trace.countP Event.artifact = 0) := by
  obtain ⟨h1, h2, h3, h4⟩ := main_abort w argv
  have hmem : e ∈ (main w argv).trace := by rw [h]; simp
  obtain ⟨h5, h6⟩ := h3 ⟨e, hmem, hf⟩
  refine ⟨stops_split _ pre e post h1 h hf, h5, by rw [h2, h6], h6, ?_⟩
  rintro rfl
  rw [h2, h4 hmem]

theorem load_failure_aborts_witness :
    ([] : List Event) = [] ∧
    (main (dir_world ["rgb/a.png", "rgb/b.png", "rgb/c.png", "rgb/d.png", "rgb/e.png"]
      ["depth/1.png", "depth/2.png", "depth/3.png", "depth/4.png", "depth/5.png"] true
      fun j => j != 1) ["pdflow", "--idir", "rgb", "--zdir", "depth", "--no-show"]).trace.countP
        Event.artifact = 2 :=
  have h := load_failure_aborts
    (dir_world ["rgb/a.png", "rgb/b.png", "rgb/c.png", "rgb/d.png", "rgb/e.png"]
      ["depth/1.png", "depth/2.png", "depth/3.png", "depth/4.png", "depth/5.png"] true
      fun j => j != 1) ["pdflow", "--idir", "rgb", "--zdir", "depth", "--no-show"]
    [.PD_flow_opencv 240 "pdflow",
      .setInitialImagesPath "rgb/a.png" "rgb/b.png" "depth/1.png" "depth/2.png",
      .initializeCUDA, .loadRGBDFrames true,
      .solveSceneFlowGPU, .createImage, .saveResults,
      .setNextImages "rgb/c.png" "depth/3.png" true,
      .solveSceneFlowGPU, .createImage, .saveResults]
    (.setNextImages "rgb/d.png" "depth/4.png" false) [] (by decide) (by decide)
  ⟨h.1, h.2.2.1.trans (by decide)⟩

theorem results_no_solve (args : Launch_args) :
    Event.solveSceneFlowGPU ∉ results args := by
  unfold results
  split <;> simp

theorem sfb_append_clean (rs A l : List Event) (hA : Event.solveSceneFlowGPU ∉ A) :
    solves_followed_by rs (A ++ l) = solves_followed_by rs l := by
  induction A with
  | nil => rfl
  | cons x A ih =>
    have hx : x ≠ .solveSceneFlowGPU := fun h => hA (by simp [h])
    simp [solves_followed_by, hx, ih (fun h => hA (by simp [h]))]

theorem sfb_split (rs : List Event) : ∀ (l pre post : List Event),
    solves_followed_by rs l = true → l = pre ++ .solveSceneFlowGPU :: post → rs <+: post
  | _, [], post, hs, rfl => by
    simp only [List.nil_append, solves_followed_by, if_true, Bool.and_eq_true] at hs
    exact List.isPrefixOf_iff_prefix.1 hs.1
  | _, x :: pre, post, hs, rfl => by
    simp only [List.cons_append, solves_followed_by, Bool.and_eq_true] at hs
    exact sfb_split rs _ pre post hs.2 rfl

/-- One solve with its results block in front of a continuation `t`. -/
theorem solve_block_results (args : Launch_args) (t : List Event) :
    solves_followed_by (results args) (.solveSceneFlowGPU :: results args ++ t) =
      solves_followed_by (results args) t ∧
    (Event.solveSceneFlowGPU :: results args ++ t).count .waitKey =
      t.count .waitKey + (if args.no_show then 0 else 1) ∧
    (Event.solveSceneFlowGPU :: results args ++ t).count .getwchar = t.count .getwchar ∧
    (Event.solveSceneFlowGPU :: results args ++ t).count .solveSceneFlowGPU =
      t.count .solveSceneFlowGPU + 1 := by
  refine ⟨?_, ?_, ?_, ?_⟩
  · have hp : (results args).isPrefixOf (results args ++ t) = true :=
      List.isPrefixOf_iff_prefix.2 (List.prefix_append _ _)
    show ((if Event.solveSceneFlowGPU = Event.solveSceneFlowGPU then
        (results args).isPrefixOf (results args ++ t) else true) &&
      solves_followed_by (results args) (results args ++ t)) = _
    rw [if_pos rfl, hp, Bool.true_and]
    exact sfb_append_clean _ _ _ (results_no_solve args)
  · unfold results; split <;> simp [List.count_cons, *]
  · unfold results; split <;> simp [List.count_cons]
  · unfold results; split <;> simp [List.count_cons]

theorem main_loop_results (w : World) (args : Launch_args) (I D : List String) :
    ∀ (fuel : Nat) (imloaded : Bool) (iters : Int) (b : Option Nat) (calls : Nat),
      solves_followed_by (results args)
        (main_loop w args I D fuel imloaded iters b calls).trace = true ∧
      (main_loop w args I D fuel imloaded iters b calls).trace.count .waitKey =
        (if args.no_show then 0
          else (main_loop w args I D fuel imloaded iters b calls).trace.count
            .solveSceneFlowGPU) ∧
      (main_loop w args I D fuel imloaded iters b calls).trace.count .getwchar = 0 := by
  intro fuel
  induction fuel with
  | zero => intros; simp [main_loop, solves_followed_by]
  | succ fuel ih =>
    intro imloaded iters b calls
    unfold main_loop
    cases imloaded with
    | false => simp [main_exit, solves_followed_by]
    | true =>
      simp only [if_true]
      split
      · cases b with
        | none =>
          obtain ⟨s1, s2, s3, s4⟩ := solve_block_results args []
          simp only [Run.after_trace, s1, s2, s3, s4]
          cases args.no_show <;> simp [solves_followed_by]
        | some b =>
          simp only []
          split
          · rename_i i z hi hz
            obtain ⟨h1, h2, h3⟩ :=
              ih (w.setNextImages calls) (iters - 1) (some (b + 1)) (calls + 1)
            revert h1 h2 h3
            generalize main_loop w args I D fuel (w.setNextImages calls) (iters - 1)
              (some (b + 1)) (calls + 1) = rec
            generalize w.setNextImages calls = res
            intro h1 h2 h3
            obtain ⟨s1, s2, s3, s4⟩ :=
              solve_block_results args ([.setNextImages i z res] ++ rec.trace)
            simp only [Run.after_trace, s1, s2, s3, s4]
            simp only [List.singleton_append, solves_followed_by, List.count_cons]
            cases hns : args.no_show <;> simp_all
          · obtain ⟨s1, s2, s3, s4⟩ := solve_block_results args []
            simp only [Run.after_trace, s1, s2, s3, s4]
            cases args.no_show <;> simp [solves_followed_by]
      · obtain ⟨s1, s2, s3, s4⟩ := solve_block_results args [.freeGPUMemory]
        simp only [Run.after_trace, main_exit, if_true, s1, s2, s3, s4]
        cases args.no_show <;> simp [solves_followed_by]


/-- C13: in a run that passes argument parsing, every solve is directly
followed by the results block, which holds exactly one persisted artifact, so
the artifact comes before the next `setNextImages` or the release; artifacts
and solves are equally many in both modes; with `no_show` false there is one
`waitKey` per solve, with `no_show` true there is no `waitKey` and no
`getwchar` at all. -/
theorem artifact_per_solve (w : World) (argv : List String) (args : Launch_args)
    (hparse : parse_arguments argv = .ok (true, args)) (hhelp : args.show_help = 0) :
    (∀ pre post, (main w argv).trace = pre ++ .solveSceneFlowGPU :: post →
      results args <+: post) ∧
    (results args).countP Event.artifact = 1 ∧
    (main w argv).trace.countP Event.artifact = (main w argv).trace.count .solveSceneFlowGPU ∧
    (args.no_show = false →
      (main w argv).trace.count .waitKey = (main w argv).trace.count .solveSceneFlowGPU) ∧
    (args.no_show = true →
      (main w argv).trace.count .waitKey = 0 ∧ (main w argv).trace.count .getwchar = 0) := by
  have hall : solves_followed_by (results args) (main w argv).trace = true ∧
      (main w argv).trace.count .waitKey =
        (if args.no_show then 0 else (main w argv).trace.count .solveSceneFlowGPU) ∧
      (main w argv).trace.count .getwchar = 0 := by
    rw [main_of_parse w argv args hparse hhelp]
    rcases main_operations_cases w args with h | ⟨i1, i2, z1, z2, I, D, iters, b, h⟩
    · rw [h]; cases args.no_show <;> simp [solves_followed_by]
    · rw [h]
      obtain ⟨h1, h2, h3⟩ :=
        main_loop_results w args I D (iters.toNat + 1) w.loadRGBDFrames iters b 0
      simp only [main_session, Run.after_trace]
      revert h1 h2 h3
      generalize main_loop w args I D (iters.toNat + 1) w.loadRGBDFrames iters b 0 = rec
      intro h1 h2 h3
      simp only [List.cons_append, List.nil_append, solves_followed_by, List.count_cons]
      cases hns : args.no_show <;> simp_all
  obtain ⟨h1, h2, h3⟩ := hall
  refine ⟨fun pre post h => sfb_split _ _ pre post h1 h, (results_counts args).1,
    (main_abort w argv).2.1, fun hns => ?_, fun hns => ?_⟩
  · simpa [hns] using h2
  · exact ⟨by simpa [hns] using h2, h3⟩

theorem artifact_per_solve_witness :
    (main world3 ["pdflow", "--idir", "rgb", "--zdir", "depth"]).trace.count .waitKey =
      (main world3 ["pdflow", "--idir", "rgb", "--zdir", "depth"]).trace.count
        .solveSceneFlowGPU :=
  (artifact_per_solve world3 ["pdflow", "--idir", "rgb", "--zdir", "depth"]
    { defaults with intensity_dir := some "rgb", depth_dir := some "depth" }
    (by decide) (by decide)).2.2.2.1 (by decide)


theorem main_loop_status (w : World) (args : Launch_args) (I D : List String) :
    ∀ (fuel : Nat) (imloaded : Bool) (iters : Int) (b : Option Nat) (calls : Nat),
      (main_loop w args I D fuel imloaded iters b calls).status = .returned 0 ∨
      (main_loop w args I D fuel imloaded iters b calls).status = .undefined ∨
      (main_loop w args I D fuel imloaded iters b calls).status = .out_of_fuel := by
  intro fuel
  induction fuel with
  | zero => intros; simp [main_loop]
  | succ fuel ih =>
    intro imloaded iters b calls
    unfold main_loop
    split
    · simp only [Run.after_status]
      split
      · split
        · simp
        · split
          · simpa using ih _ _ _ _
          · simp
      · simp [main_exit]
    · simp [main_exit]

/-- The exit status of `main`: it returns non-zero exactly when
`parse_arguments` returns false or sets `show_help`, and then only the usage
is printed; a run that passes argument parsing returns 0 unless it indexes a
vector out of range. -/
theorem exit_status (w : World) (argv : List String) :
    ((∃ c, (main w argv).status = .returned c ∧ c ≠ 0) ↔
      ∃ b a, parse_arguments argv = .ok (b, a) ∧ (b = false ∨ a.show_help ≠ 0)) ∧
    ((∃ c, (main w argv).status = .returned c ∧ c ≠ 0) →
      main w argv = ⟨[.printf_usage, .getwchar], .returned 1⟩) ∧
    (∀ args, parse_arguments argv = .ok (true, args) → args.show_help = 0 →
      (main w argv).status = .returned 0 ∨ (main w argv).status = .undefined) := by
  have hpass : ∀ args, parse_arguments argv = .ok (true, args) → args.show_help = 0 →
      (main w argv).status = .returned 0 ∨ (main w argv).status = .undefined := by
    intro args hparse hhelp
    have htot := main_total w argv
    rw [main_of_parse w argv args hparse hhelp] at htot ⊢
    rcases main_operations_cases w args with h | ⟨i1, i2, z1, z2, I, D, iters, b, h⟩
    · rw [h]; simp
    · rw [h] at htot ⊢
      simp only [main_session, Run.after_status] at htot ⊢
      rcases main_loop_status w args I D (iters.toNat + 1) w.loadRGBDFrames iters b 0
        with h | h | h
      · exact Or.inl h
      · exact Or.inr h
      · exact absurd h htot
  have hnz : (∃ c, (main w argv).status = .returned c ∧ c ≠ 0) →
      (∃ b a, parse_arguments argv = .ok (b, a) ∧ (b = false ∨ a.show_help ≠ 0)) ∧
      main w argv = ⟨[.printf_usage, .getwchar], .returned 1⟩ := by
    rintro ⟨c, hc, hne⟩
    rcases main_cases w argv with h | ⟨hp, h⟩ | ⟨args, hparse, hhelp, -⟩
    · rw [h] at hc; cases hc
    · exact ⟨hp, h⟩
    · rcases hpass args hparse hhelp with h | h
      · rw [h] at hc
        injection hc with hc
        exact absurd hc.symm hne
      · rw [h] at hc; cases hc
  refine ⟨⟨fun h => (hnz h).1, ?_⟩, fun h => (hnz h).2, hpass⟩
  rintro ⟨b, a, hparse, hb⟩
  refine ⟨1, ?_, by decide⟩
  unfold main
  rw [hparse]
  rcases hb with rfl | hb
  · simp
  · cases b <;> simp [hb]

theorem exit_status_witness :
    main world3 ["pdflow", "--no-show", "--help"] = ⟨[.printf_usage, .getwchar], .returned 1⟩ :=
  (exit_status world3 ["pdflow", "--no-show", "--help"]).2.1
    ((exit_status world3 ["pdflow", "--no-show", "--help"]).1.2
      ⟨true, { defaults with no_show := true, show_help := 1 }, by decide, Or.inr (by decide)⟩)

/-- C14, at inputs where it fails: with one matching intensity file the run
passes argument parsing and then indexes the listing out of range instead of
returning 0; and with `--rows abc` the exception of `stoi` ends the run
without a return from `main` and without the usage. -/
theorem exit_zero_not_reached :
    parse_arguments ["pdflow", "--idir", "rgb", "--zdir", "depth"] =
      .ok (true, { defaults with intensity_dir := some "rgb", depth_dir := some "depth" }) ∧
    (main (dir_world ["rgb/a.png"] ["depth/1.png", "depth/2.png", "depth/3.png"] true
        fun _ => true) ["pdflow", "--idir", "rgb", "--zdir", "depth"]).status = .undefined ∧
    (main (plain_world true fun _ => true) ["pdflow", "--rows", "abc"]).status = .terminated ∧
    (main (plain_world true fun _ => true) ["pdflow", "--rows", "abc"]).trace = [] := by
  decide

theorem getElem?_of_drop_cons {l : List String} {b : Nat} {x : String} {xs : List String}
    (h : l.drop b = x :: xs) : l[b]? = some x ∧ l.drop (b + 1) = xs := by
  constructor
  · have := congrArg List.head? h
    simpa [List.head?_drop] using this
  · have := congrArg List.tail h
    simpa [List.tail_drop] using this

theorem getElem?_of_drop_nil {l : List String} {b : Nat} (h : l.drop b = []) : l[b]? = none := by
  have := congrArg List.head? h
  simpa [List.head?_drop] using this

/-- When every advance load succeeds and the depth vector is shorter than the
intensity vector, the loop uses up the depth frames and then indexes the
depth vector at its size. -/
theorem main_loop_depth_short (w : World) (args : Launch_args) (I D : List String)
    (hall : ∀ j, w.setNextImages j = true) :
    ∀ (Is Zs : List String) (b calls fuel : Nat), I.drop b = Is → D.drop b = Zs →
      Zs.length < Is.length → Is.length < fuel →
      main_loop w args I D fuel true (Is.length + 1) (some b) calls =
        ⟨.solveSceneFlowGPU :: results args ++ (List.zip Is Zs).flatMap (advance args),
          .undefined⟩ := by
  intro Is
  induction Is with
  | nil => intro Zs b calls fuel _ _ hlen; simp at hlen
  | cons i Is ih =>
    intro Zs b calls fuel hI hD hlen hf
    obtain ⟨f, rfl⟩ : ∃ f, fuel = f + 1 := ⟨fuel - 1, by omega⟩
    obtain ⟨hi, hI'⟩ := getElem?_of_drop_cons hI
    have hpos : ((((i :: Is).length : Nat) : Int) + 1 - 1 > 0) := by
      simp only [List.length_cons]; omega
    have hsub : ((((i :: Is).length : Nat) : Int) + 1 - 1) = ((Is.length : Nat) : Int) + 1 := by
      simp
    rw [main_loop]
    cases Zs with
    | nil =>
      have hz := getElem?_of_drop_nil hD
      simp only [if_true, hpos, hi, hz]
      simp [Run.after]
    | cons z Zs =>
      obtain ⟨hz, hD'⟩ := getElem?_of_drop_cons hD
      have hrec := ih Zs (b + 1) (calls + 1) f hI' hD' (by simpa using hlen) (by simpa using hf)
      simp only [if_true, hpos, hi, hz, hall, hsub, hrec]
      simp [Run.after, advance]

theorem frames_handed_advances (args : Launch_args) (ps : List (String × String)) :
    frames_handed (ps.flatMap (advance args)) = ps := by
  induction ps with
  | nil => rfl
  | cons p ps ih =>
    rw [List.flatMap_cons, frames_handed_append, ih]
    simp [advance, frames_handed, frames_handed_results]

theorem sort_length (v : List String) : (sort v).length = v.length :=
  (List.perm_insertionSort path_le v).length_eq

/-- C18: in directory mode with `N ≥ 2` matching intensity files, `M` matching
depth files and every load succeeding, `main` indexes a vector out of range
exactly when `M < N`; when `M ≥ N` it returns 0; and when `M ≥ 2` the frames
handed to the solver are the position-wise pairs of the two sorted vectors up
to the shorter one, so depth files beyond position `N` are never used and,
when `M < N`, all `M` depth frames are used before the depth vector is
indexed at `M`. -/
theorem depth_index_in_bounds_iff (w : World) (argv : List String) (args : Launch_args)
    (idir zdir : String)
    (hparse : parse_arguments argv = .ok (true, args)) (hhelp : args.show_help = 0)
    (hidir : args.intensity_dir = some idir) (hzdir : args.depth_dir = some zdir)
    (hN : 2 ≤ (get_all w idir ".png" []).length)
    (hload : w.loadRGBDFrames = true) (hnext : ∀ j, w.setNextImages j = true) :
    ((main w argv).status = .undefined ↔
      (get_all w zdir ".png" []).length < (get_all w idir ".png" []).length) ∧
    ((get_all w idir ".png" []).length ≤ (get_all w zdir ".png" []).length →
      (main w argv).status = .returned 0) ∧
    (2 ≤ (get_all w zdir ".png" []).length →
      frames_handed (main w argv).trace =
        List.zip (sort (get_all w idir ".png" [])) (sort (get_all w zdir ".png" []))) := by
  rw [← sort_length (get_all w idir ".png" [])] at hN ⊢
  rw [← sort_length (get_all w zdir ".png" [])]
  rw [main_of_parse w argv args hparse hhelp]
  simp only [main_operations, hidir, hzdir]
  generalize sort (get_all w idir ".png" []) = I at hN ⊢
  generalize sort (get_all w zdir ".png" []) = D
  rcases I with _ | ⟨i0, _ | ⟨i1, Is⟩⟩
  · simp at hN
  · simp at hN
  rcases D with _ | ⟨z0, _ | ⟨z1, Zs⟩⟩
  · simp
  · simp
  · simp only [List.getElem?_cons_zero, List.getElem?_cons_succ, main_session, hload,
      List.length_cons]
    have e1 : (((Is.length + 1 + 1 : Nat) : Int) - 1) = (Is.length : Int) + 1 := by
      push_cast; omega
    have e2 : ((Is.length : Int) + 1).toNat + 1 = Is.length + 1 + 1 := by omega
    simp only [e1, e2]
    by_cases hle : Is.length ≤ Zs.length
    · have hloop := main_loop_all_loaded w args (i0 :: i1 :: Is) (z0 :: z1 :: Zs) hnext Is Zs 2
        0 (Is.length + 1 + 1) rfl rfl hle (by omega)
      simp only [hloop, Run.after_trace, Run.after_status]
      simp [frames_handed, frames_handed_append, frames_handed_results,
        frames_handed_advances]
      omega
    · have hloop := main_loop_depth_short w args (i0 :: i1 :: Is) (z0 :: z1 :: Zs) hnext Is Zs
        2 0 (Is.length + 1 + 1) rfl rfl (by omega) (by omega)
      simp only [hloop, Run.after_trace, Run.after_status]
      simp [frames_handed, frames_handed_append, frames_handed_results,
        frames_handed_advances]
      omega

theorem depth_index_in_bounds_iff_witness :
    (main (dir_world ["rgb/a.png", "rgb/b.png", "rgb/c.png"] ["depth/1.png", "depth/2.png"]
      true fun _ => true) ["pdflow", "--idir", "rgb", "--zdir", "depth"]).status = .undefined :=
  (depth_index_in_bounds_iff
    (dir_world ["rgb/a.png", "rgb/b.png", "rgb/c.png"] ["depth/1.png", "depth/2.png"]
      true fun _ => true) ["pdflow", "--idir", "rgb", "--zdir", "depth"]
    { defaults with intensity_dir := some "rgb", depth_dir := some "depth" } "rgb" "depth"
    (by decide) (by decide) (by decide) (by decide) (by decide) (by decide)
    (fun _ => rfl)).1.2 (by decide)

/-- The loop uses the arguments only through the results block. -/
theorem main_loop_args_congr (w : World) (args args' : Launch_args) (I D : List String)
    (h : results args' = results args) :
    ∀ (fuel : Nat) (imloaded : Bool) (iters : Int) (b : Option Nat) (calls : Nat),
      main_loop w args' I D fuel imloaded iters b calls =
        main_loop w args I D fuel imloaded iters b calls := by
  intro fuel
  induction fuel with
  | zero => intros; rfl
  | succ fuel ih =>
    intro imloaded iters b calls
    simp only [main_loop, h, ih]

/-- The section "Main operations" when a directory is missing: the explicit
file names are set and the loop runs once. -/
theorem main_operations_explicit (w : World) (args : Launch_args)
    (hmode : args.intensity_dir = none ∨ args.depth_dir = none) :
    main_operations w args =
      ⟨[.PD_flow_opencv args.rows args.output_filename_root,
          .setInitialImagesPath args.intensity_filename_1 args.intensity_filename_2
            args.depth_filename_1 args.depth_filename_2,
          .initializeCUDA, .loadRGBDFrames w.loadRGBDFrames] ++
        (if w.loadRGBDFrames then .solveSceneFlowGPU :: results args ++ [.freeGPUMemory]
          else []), .returned 0⟩ := by
  unfold main_operations
  rcases hmode with h | h
  · cases hl : w.loadRGBDFrames <;>
      simp [h, main_session, hl, main_loop, main_exit, Run.after]
  · cases hi : args.intensity_dir <;> cases hl : w.loadRGBDFrames <;>
      simp [h, hi, main_session, hl, main_loop, main_exit, Run.after]

/-- C12: both directories present select directory mode: every frame handed
to the solver is a matching file of its own directory, and the run is the
same whatever the four explicit file names are.  With a directory missing the
four explicit file names are the frames handed to the solver and the file
system is not consulted. -/
theorem directory_mode_selection (w : World) (argv : List String) (args : Launch_args)
    (hparse : parse_arguments argv = .ok (true, args)) (hhelp : args.show_help = 0) :
    (∀ idir zdir, args.intensity_dir = some idir → args.depth_dir = some zdir →
      (∀ p ∈ frames_handed (main w argv).trace,
        p.1 ∈ get_all w idir ".png" [] ∧ p.2 ∈ get_all w zdir ".png" []) ∧
      (∀ a b c d : String,
        main_operations w { args with intensity_filename_1 := a, intensity_filename_2 := b,
                                      depth_filename_1 := c, depth_filename_2 := d } =
          main w argv)) ∧
    ((args.intensity_dir = none ∨ args.depth_dir = none) →
      frames_handed (main w argv).trace =
        [(args.intensity_filename_1, args.depth_filename_1),
         (args.intensity_filename_2, args.depth_filename_2)] ∧
      (∀ w' : World, w'.loadRGBDFrames = w.loadRGBDFrames → main w' argv = main w argv)) := by
  rw [main_of_parse w argv args hparse hhelp]
  refine ⟨fun idir zdir hidir hzdir => ⟨fun p hp => ?_, fun a b c d => ?_⟩, fun hmode => ⟨?_, ?_⟩⟩
  · have hpre := main_operations_frames w args idir zdir hidir hzdir
    have hz := List.of_mem_zip (hpre.subset hp)
    exact ⟨(List.perm_insertionSort path_le _).subset hz.1,
      (List.perm_insertionSort path_le _).subset hz.2⟩
  · simp only [main_operations, hidir, hzdir, main_session]
    simp only [main_loop_args_congr w args ⟨args.rows, args.show_help, a, b, some idir, c, d,
      some zdir, args.output_filename_root, args.no_show⟩ _ _ rfl]
  · rw [main_operations_explicit w args hmode]
    cases w.loadRGBDFrames <;>
      simp [frames_handed, frames_handed_append, frames_handed_results]
  · intro w' hw'
    rw [main_of_parse w' argv args hparse hhelp, main_operations_explicit w args hmode,
      main_operations_explicit w' args hmode, hw']

theorem directory_mode_selection_witness :
    (∀ a b c d : String,
      main_operations world3
        { ({ defaults with intensity_dir := some "rgb", depth_dir := some "depth" } :
            Launch_args) with
          intensity_filename_1 := a, intensity_filename_2 := b,
          depth_filename_1 := c, depth_filename_2 := d } =
        main world3 ["pdflow", "--idir", "rgb", "--zdir", "depth"]) ∧
    frames_handed (main world3 ["pdflow", "--idir", "rgb", "--i1", "x.png"]).trace =
      [("x.png", "z1.png"), ("i2.png", "z2.png")] :=
  ⟨((directory_mode_selection world3 ["pdflow", "--idir", "rgb", "--zdir", "depth"]
      { defaults with intensity_dir := some "rgb", depth_dir := some "depth" }
      (by decide) (by decide)).1 "rgb" "depth" (by decide) (by decide)).2,
   ((directory_mode_selection world3 ["pdflow", "--idir", "rgb", "--i1", "x.png"]
      { defaults with intensity_dir := some "rgb", intensity_filename_1 := "x.png" }
      (by decide) (by decide)).2 (Or.inr (by decide))).1⟩

end PDFlow
